import Mathlib

/-! WWV time-code driver (`wwv.c`): shallow embedding and verified properties.

The driver turns a calendar timestamp into the WWV one-bit-per-second frame and
replays it on one GPIO line under a mutex.  The embedding below follows
`src/wwv.c` function by function:

* C `int` / `long` values are `Int`; `/` and `%` of C are `Int.tdiv` and
  `Int.tmod` (truncation toward zero); the one addition that can leave the
  machine range, `tm_year + 1900`, wraps at 32 bits (the kernel is built with
  wrapping signed arithmetic and the `bcm2835` target has a 32-bit `long`).
* Calls into the kernel (`gpiod_set_value`, the sleeps, the mutex, `kmalloc`,
  `kfree`, `copy_from_user`) are recorded, in program order, as a trace of
  events `Ev`; `printk` logging is not recorded.
* Everything the kernel decides (allocation success, the copied bytes, whether
  a sleep on the mutex ends by acquisition or by a signal) is an explicit
  argument `Env`.
-/

namespace WWV

/-! ## Data model -/

/-- Broken-down time as declared by the kernel header `linux/time.h`
(all fields `int`, `tm_year` a `long`); only `tm_min`, `tm_hour`, `tm_year`
and `tm_yday` are read by the driver.  The caller in `tests/userspace.c` hands over the C
library's `struct tm`, whose `tm_year` is an `int` at the same offset only where `long` is
32 bits wide, as on the `bcm2835` target. -/
structure tm where
  tm_sec : Int
  tm_min : Int
  tm_hour : Int
  tm_mday : Int
  tm_mon : Int
  tm_year : Int
  tm_wday : Int
  tm_yday : Int
deriving DecidableEq, Repr

/-- Digits of a date, one field per encoded place (`struct wwv_date`). -/
structure wwv_date where
  year : Int
  min_ones : Int
  min_tens : Int
  hour_ones : Int
  hour_tens : Int
  day_ones : Int
  day_tens : Int
  day_hund : Int
deriving DecidableEq, Repr

/-- Number of 10 ms cycles of a zero bit (`#define ZBIT 18`). -/
def ZBIT : Int := 18
/-- Number of 10 ms cycles of a one bit (`#define OBIT 48`). -/
def OBIT : Int := 48
/-- Number of 10 ms cycles of a position identifier (`#define PINDEX 78`). -/
def PINDEX : Int := 78
/-- Idle time after a zero bit, in microseconds (`#define ZDELAY 830000`). -/
def ZDELAY : Nat := 830000
/-- Idle time after a one bit, in microseconds (`#define ODELAY 530000`). -/
def ODELAY : Nat := 530000
/-- Idle time after a position identifier, in microseconds (`#define PDELAY 230000`). -/
def PDELAY : Nat := 230000

/-- Two's-complement wrap of a sum computed in a 32-bit `long`. -/
def wrap_long (x : Int) : Int := (x + 2147483648) % 4294967296 - 2147483648

/-! ## `wwv_conv_date` -/

/-- The function `wwv_conv_date(utc, dtime)`: the returned pair is the C return value and
the content of `*dtime` afterwards (left as it was on the three early returns). -/
def wwv_conv_date (utc : tm) (dtime : wwv_date) : Int × wwv_date :=
  if utc.tm_min > 59 ∨ utc.tm_min < 0 then (1, dtime)
  else if utc.tm_hour > 23 ∨ utc.tm_hour < 0 then (1, dtime)
  else if utc.tm_yday > 366 ∨ utc.tm_yday < 0 then (1, dtime)
  else
    (0, { year := Int.tmod (wrap_long (utc.tm_year + 1900)) 10
          min_ones := Int.tmod utc.tm_min 10
          min_tens := Int.tdiv utc.tm_min 10
          hour_ones := Int.tmod utc.tm_hour 10
          hour_tens := Int.tdiv utc.tm_hour 10
          day_ones := Int.tmod utc.tm_yday 10
          day_tens := Int.tdiv (Int.tmod utc.tm_yday 100) 10
          day_hund := Int.tdiv utc.tm_yday 100 })

/-- The digit decomposition as the specification writes it (section 3, EncodedFrame), with
the mathematical `mod` (result in `0..9`) and floor division. -/
def spec_digits (year minute hour day_of_year : Int) : wwv_date :=
  { year := year % 10
    min_ones := minute % 10
    min_tens := minute / 10
    hour_ones := hour % 10
    hour_tens := hour / 10
    day_ones := day_of_year % 10
    day_tens := (day_of_year % 100) / 10
    day_hund := day_of_year / 100 }

/-- The timestamp of the end-to-end scenario: year 2021, day of year 1, 14:05 UTC. -/
def utc_2021 : tm :=
  { tm_sec := 0, tm_min := 5, tm_hour := 14, tm_mday := 1, tm_mon := 0,
    tm_year := 121, tm_wday := 5, tm_yday := 1 }

/-- A timestamp with all fields zero except the given year offset. -/
def utc_year (y : Int) : tm :=
  { tm_sec := 0, tm_min := 0, tm_hour := 0, tm_mday := 1, tm_mon := 0,
    tm_year := y, tm_wday := 0, tm_yday := 0 }

/-- A digit record with every field zero. -/
def date_zero : wwv_date :=
  { year := 0, min_ones := 0, min_tens := 0, hour_ones := 0, hour_tens := 0,
    day_ones := 0, day_tens := 0, day_hund := 0 }

/-! ## Events -/

/-- One call into the kernel made by the driver.  `gpiod_set_value` is always called on the
WWV pin `gpio_wwv` (the only pin the encoder touches); `ssleep (n)` is `msleep (n * 1000)`, as
`linux/delay.h` defines it.  `mutex_wait` is the sleep of `mutex_lock_interruptible` on a held
mutex and `mutex_acquire` its return with the mutex taken.  `call_conv_date` and
`call_enc_date` mark the two call sites in `wwv_ioctl`. -/
inductive Ev where
  | gpiod_set_value (value : Bool)
  | usleep_range (min max : Nat)
  | msleep (msecs : Nat)
  | mutex_wait
  | mutex_acquire
  | mutex_unlock
  | kmalloc (ok : Bool)
  | kfree
  | copy_from_user (ok : Bool)
  | call_conv_date
  | call_enc_date
deriving DecidableEq, Repr

/-- The kernel helper `ssleep(seconds)`. -/
def ssleep (seconds : Nat) : List Ev := [Ev.msleep (seconds * 1000)]

/-- True on the events that write the pin. -/
def Ev.is_pin : Ev → Bool
  | Ev.gpiod_set_value _ => true
  | _ => false

/-- True on the events the encoder may issue: pin writes and sleeps. -/
def Ev.is_pin_or_sleep : Ev → Bool
  | Ev.gpiod_set_value _ => true
  | Ev.usleep_range _ _ => true
  | Ev.msleep _ => true
  | _ => false

/-- Nominal length of an event in microseconds: the middle of a `usleep_range` interval
(5000 for the half cycle `4995..5005`, the lower bound `d` for `d..d+1`), the stated time of an
`msleep`, nothing for the other calls. -/
def nominal_us : Ev → Nat
  | Ev.usleep_range lo hi => (lo + hi) / 2
  | Ev.msleep ms => ms * 1000
  | _ => 0

/-- Nominal length of a trace in microseconds. -/
def duration_us (t : List Ev) : Nat := (t.map nominal_us).sum

/-! ## Encoder -/

/-- One pass of the loop body of `wwv_drivepin`: assert, half cycle, deassert, half cycle. -/
def drive_cycle : List Ev :=
  [Ev.gpiod_set_value true, Ev.usleep_range 4995 5005,
    Ev.gpiod_set_value false, Ev.usleep_range 4995 5005]

/-- The `for` loop of `wwv_drivepin` with the given number of passes left. -/
def drivepin_loop : Nat → List Ev
  | 0 => []
  | n + 1 =>
    [Ev.gpiod_set_value true, Ev.usleep_range 4995 5005,
      Ev.gpiod_set_value false, Ev.usleep_range 4995 5005] ++ drivepin_loop n

/-- The function `wwv_drivepin(wwv_pin, times)`: the loop runs while `i < times`, so not at
all for `times ≤ 0`.  Its return value is always `0` and no caller reads it. -/
def wwv_drivepin (times : Int) : List Ev := drivepin_loop times.toNat

/-- The 32-bit two's-complement bit pattern of an `int`. -/
def int_bits (x : Int) : Nat := (x % 4294967296).toNat

/-- The `for` loop of `wwv_enc_bcd` with `n` passes left at index `i`; the test
`val & (1 << i)` is taken on the bit patterns.  Every call in the driver has `places ≤ 4`, so
`1 << i` stays far inside the `int` range. -/
def enc_bcd_loop (val : Int) : Nat → Nat → List Ev
  | 0, _ => []
  | n + 1, i =>
    (if int_bits val &&& (1 <<< i) ≠ 0 then
        wwv_drivepin OBIT ++ [Ev.usleep_range ODELAY (ODELAY + 1)]
      else
        wwv_drivepin ZBIT ++ [Ev.usleep_range ZDELAY (ZDELAY + 1)]) ++
      enc_bcd_loop val n (i + 1)

/-- The function `wwv_enc_bcd(wwv_dat, val, places)`. -/
def wwv_enc_bcd (val : Int) (places : Int) : List Ev := enc_bcd_loop val places.toNat 0

/-- The position identifier statements that close `seg_p1` .. `seg_p4`. -/
def pos_ident : List Ev := wwv_drivepin PINDEX ++ [Ev.usleep_range PDELAY (PDELAY + 1)]

/-- Segment 1 (`seg_p1`): blank, three zero bits, year digit, zero bit, position identifier. -/
def seg_p1 (dtime : wwv_date) : List Ev :=
  [Ev.msleep 1000] ++ wwv_enc_bcd 0 3 ++ wwv_enc_bcd dtime.year 4 ++ wwv_enc_bcd 0 1 ++
    (wwv_drivepin PINDEX ++ [Ev.usleep_range PDELAY (PDELAY + 1)])

/-- Segment 2 (`seg_p2`): minutes. -/
def seg_p2 (dtime : wwv_date) : List Ev :=
  wwv_enc_bcd dtime.min_ones 4 ++ wwv_enc_bcd 0 1 ++ wwv_enc_bcd dtime.min_tens 3 ++
    wwv_enc_bcd 0 1 ++ (wwv_drivepin PINDEX ++ [Ev.usleep_range PDELAY (PDELAY + 1)])

/-- Segment 3 (`seg_p3`): hours. -/
def seg_p3 (dtime : wwv_date) : List Ev :=
  wwv_enc_bcd dtime.hour_ones 4 ++ wwv_enc_bcd 0 1 ++ wwv_enc_bcd dtime.hour_tens 3 ++
    wwv_enc_bcd 0 1 ++ (wwv_drivepin PINDEX ++ [Ev.usleep_range PDELAY (PDELAY + 1)])

/-- Segment 4 (`seg_p4`): ones and tens of the day of year. -/
def seg_p4 (dtime : wwv_date) : List Ev :=
  wwv_enc_bcd dtime.day_ones 4 ++ wwv_enc_bcd 0 1 ++ wwv_enc_bcd dtime.day_tens 4 ++
    (wwv_drivepin PINDEX ++ [Ev.usleep_range PDELAY (PDELAY + 1)])

/-- Segment 5 (`seg_p5`): hundreds of the day of year, three zero bits, five seconds. -/
def seg_p5 (dtime : wwv_date) : List Ev :=
  wwv_enc_bcd dtime.day_hund 2 ++ wwv_enc_bcd 0 3 ++ ssleep 5

/-- The function `wwv_enc_date(wwv_dat, dtime)`: the five segments, then ten seconds. -/
def wwv_enc_date (dtime : wwv_date) : List Ev :=
  seg_p1 dtime ++ seg_p2 dtime ++ seg_p3 dtime ++ seg_p4 dtime ++ seg_p5 dtime ++ ssleep 10

/-! ## Reading a trace as one-second slots -/

/-- What one slot of the WWV frame carries. -/
inductive Slot where
  | blank
  | zero
  | one
  | pos
deriving DecidableEq, Repr

/-- A pulse is told by the number of 10 ms cycles the pin was driven: 18 is a zero bit,
48 a one bit, 78 a position identifier. -/
def classify (cycles : Nat) : Option Slot :=
  if cycles = 18 then some Slot.zero
  else if cycles = 48 then some Slot.one
  else if cycles = 78 then some Slot.pos
  else none

/-- Reads a pin trace as a sequence of slots, with `n` the number of drive cycles seen in the
slot being read: a whole number of seconds of `msleep` is that many blank slots, a run of
drive cycles closed by an idle `usleep_range` is one pulse slot, anything else is unreadable. -/
def read_slots : Nat → List Ev → Option (List Slot)
  | n, [] => if n = 0 then some [] else none
  | n, e :: rest =>
    match e with
    | Ev.msleep ms =>
      if n = 0 ∧ ms % 1000 = 0 then
        (read_slots 0 rest).map (fun s => List.replicate (ms / 1000) Slot.blank ++ s)
      else none
    | Ev.gpiod_set_value true =>
      match rest with
      | Ev.usleep_range 4995 5005 :: Ev.gpiod_set_value false ::
          Ev.usleep_range 4995 5005 :: rest2 => read_slots (n + 1) rest2
      | _ => none
    | Ev.usleep_range _ _ =>
      match classify n with
      | some s => (read_slots 0 rest).map (fun l => s :: l)
      | none => none
    | _ => none

/-- Bit `i` of a BCD field as the frame layout means it: the binary digit of weight `2 ^ i`
(for a negative value, of its two's-complement form). -/
def bcd_bit (v : Int) (i : Nat) : Slot := if (v / 2 ^ i) % 2 = 1 then Slot.one else Slot.zero

/-- A BCD field of the given width, least-significant bit first. -/
def bcd_field (v : Int) (width : Nat) : List Slot := (List.range width).map (bcd_bit v)

/-- The WWV frame layout of section 4.1 of the specification, slot by slot. -/
def frame_layout (d : wwv_date) : List Slot :=
  List.replicate 1 Slot.blank ++
  (List.replicate 3 Slot.zero ++ bcd_field d.year 4 ++ [Slot.zero] ++ [Slot.pos]) ++
  (bcd_field d.min_ones 4 ++ [Slot.zero] ++ bcd_field d.min_tens 3 ++ [Slot.zero] ++
    [Slot.pos]) ++
  (bcd_field d.hour_ones 4 ++ [Slot.zero] ++ bcd_field d.hour_tens 3 ++ [Slot.zero] ++
    [Slot.pos]) ++
  (bcd_field d.day_ones 4 ++ [Slot.zero] ++ bcd_field d.day_tens 4 ++ [Slot.pos]) ++
  (bcd_field d.day_hund 2 ++ List.replicate 3 Slot.zero ++ List.replicate 5 Slot.blank) ++
  List.replicate 10 Slot.blank

/-- Every digit field is within the range a four-place field is read on. -/
def small_digits (d : wwv_date) : Prop :=
  (-16 < d.year ∧ d.year < 16) ∧ (-16 < d.min_ones ∧ d.min_ones < 16) ∧
  (-16 < d.min_tens ∧ d.min_tens < 16) ∧ (-16 < d.hour_ones ∧ d.hour_ones < 16) ∧
  (-16 < d.hour_tens ∧ d.hour_tens < 16) ∧ (-16 < d.day_ones ∧ d.day_ones < 16) ∧
  (-16 < d.day_tens ∧ d.day_tens < 16) ∧ (-16 < d.day_hund ∧ d.day_hund < 16)

/-- The digits of the end-to-end scenario (2021, day 1, 14:05). -/
def date_2021 : wwv_date :=
  { year := 1, min_ones := 5, min_tens := 0, hour_ones := 4, hour_tens := 1,
    day_ones := 1, day_tens := 0, day_hund := 0 }

/-! ## The transmission gate: `wwv_ioctl` -/

/-- Error number `EINTR` of the kernel headers. -/
def EINTR : Int := 4
/-- Error number `EAGAIN` of the kernel headers. -/
def EAGAIN : Int := 11
/-- Error number `ENOMEM` of the kernel headers. -/
def ENOMEM : Int := 12
/-- Error number `EFAULT` of the kernel headers. -/
def EFAULT : Int := 14
/-- Error number `EINVAL` of the kernel headers. -/
def EINVAL : Int := 22

/-- Magic number of the driver (`#define WWV_MAGIC 0xC1`). -/
def WWV_MAGIC : Nat := 0xC1

/-- The kernel's request-code builder for a write request: direction 1 in bits 30..31, the
argument size in bits 16..29, the magic in bits 8..15, the number in bits 0..7. -/
def ioc_write (type nr size : Nat) : Nat := 1 * 2 ^ 30 + size * 2 ^ 16 + type * 2 ^ 8 + nr

/-- The request code `WWV_TRANSMIT` of `wwv.h`; its argument type is a pointer, four bytes on
the target. -/
def WWV_TRANSMIT : Nat := ioc_write WWV_MAGIC 1 4

/-- The two pieces of shared state the driver acts on: the mutex `wwv_data_fops->lock` and
the level of the WWV pin. -/
structure Gate where
  locked : Bool
  pin : Bool
deriving DecidableEq, Repr

/-- What the kernel decides during one call of `wwv_ioctl`. -/
structure Env where
  /-- When `mutex_lock_interruptible` has to sleep: `true` if the sleep ends with the mutex
  taken, `false` if a signal ends it.  (On a free mutex the call takes it at once.) -/
  lock_wait_acquires : Bool
  /-- Whether the first `kmalloc` (for `udtime`) returns a buffer. -/
  kmalloc_udtime : Bool
  /-- Whether the second `kmalloc` (for `kdtime`) returns a buffer. -/
  kmalloc_kdtime : Bool
  /-- The timestamp `copy_from_user` reads at `arg`, or `none` if the copy faults. -/
  user_tm : Option tm
  /-- The content of the fresh `kdtime` buffer. -/
  kdtime_init : wwv_date
deriving DecidableEq, Repr

/-- Effect of one event on the shared state. -/
def Gate.step (g : Gate) : Ev → Gate
  | Ev.mutex_acquire => { g with locked := true }
  | Ev.mutex_unlock => { g with locked := false }
  | Ev.gpiod_set_value v => { g with pin := v }
  | _ => g

/-- The shared state after a trace. -/
def Gate.run (g : Gate) (t : List Ev) : Gate := t.foldl Gate.step g

/-- The statements under the label `fail`: unlock, then free the buffers that were
allocated. -/
def fail_path (udtime kdtime : Bool) : List Ev :=
  [Ev.mutex_unlock] ++ (if udtime then [Ev.kfree] else []) ++ (if kdtime then [Ev.kfree] else [])

/-- The statements of `mutex_lock_interruptible` returning `0`: asleep first if the mutex is
held, then the mutex is taken. -/
def lock_path (g : Gate) : List Ev :=
  (if g.locked then [Ev.mutex_wait] else []) ++ [Ev.mutex_acquire]

/-- The function `wwv_ioctl(filp, cmd, arg)`, called with the shared state `g`: `nonblock` is
`filp->f_flags & O_NONBLOCK`, the result is the return value and the trace of the call. -/
def wwv_ioctl (nonblock : Bool) (cmd : Nat) (env : Env) (g : Gate) : Int × List Ev :=
  if nonblock ∧ g.locked then (-EAGAIN, [])
  else if cmd = WWV_TRANSMIT then
    if g.locked ∧ env.lock_wait_acquires = false then (-EINTR, [Ev.mutex_wait])
    else if env.kmalloc_udtime = false then
      (-ENOMEM, lock_path g ++ [Ev.kmalloc false] ++ fail_path false false)
    else if env.kmalloc_kdtime = false then
      (-ENOMEM, lock_path g ++ [Ev.kmalloc true, Ev.kmalloc false] ++ fail_path true false)
    else
      match env.user_tm with
      | none =>
        (-EFAULT, lock_path g ++ [Ev.kmalloc true, Ev.kmalloc true, Ev.copy_from_user false] ++
          fail_path true true)
      | some udtime =>
        if (wwv_conv_date udtime env.kdtime_init).1 ≠ 0 then
          (-EINVAL, lock_path g ++ [Ev.kmalloc true, Ev.kmalloc true, Ev.copy_from_user true,
            Ev.call_conv_date] ++ fail_path true true)
        else
          (0, lock_path g ++ [Ev.kmalloc true, Ev.kmalloc true, Ev.copy_from_user true,
            Ev.call_conv_date, Ev.call_enc_date] ++
            wwv_enc_date (wwv_conv_date udtime env.kdtime_init).2 ++
            [Ev.mutex_unlock, Ev.kfree, Ev.kfree, Ev.gpiod_set_value false])
  else (-EINVAL, [])

/-- The gate at rest: mutex free, pin low. -/
def Gate.idle : Gate := { locked := false, pin := false }

/-- A kernel that grants every allocation and copies the given timestamp. -/
def env_ok (utc : tm) : Env :=
  { lock_wait_acquires := true, kmalloc_udtime := true, kmalloc_kdtime := true,
    user_tm := some utc, kdtime_init := date_zero }

/-- A timestamp with day of year 500, which `wwv_conv_date` rejects. -/
def utc_day_500 : tm :=
  { tm_sec := 0, tm_min := 5, tm_hour := 14, tm_mday := 1, tm_mon := 0,
    tm_year := 121, tm_wday := 5, tm_yday := 500 }

/-! ## Two concurrent calls -/

/-- Two tasks inside `wwv_ioctl` at the same time (`false` the parent, `true` the child of
the test program): who holds the mutex, and the events each task still has to issue, in its
program order. -/
structure Sys where
  holder : Option Bool
  a : List Ev
  b : List Ev
deriving DecidableEq, Repr

/-- The mutex after task `t` issues event `e`, or `none` if `e` cannot be issued now:
`mutex_acquire` needs a free mutex (a blocked task stays where it is), `mutex_unlock` is
issued by the holder. -/
def mutex_after (holder : Option Bool) (t : Bool) : Ev → Option (Option Bool)
  | Ev.mutex_acquire => if holder = none then some (some t) else none
  | Ev.mutex_unlock => if holder = some t then some none else none
  | _ => some holder

/-- One scheduling step: task `t` issues its next event. -/
def sched_step (s : Sys) (t : Bool) : Option (Sys × Ev) :=
  match (if t then s.b else s.a) with
  | [] => none
  | e :: rest =>
    match mutex_after s.holder t e with
    | none => none
    | some h =>
      some (if t then { holder := h, a := s.a, b := rest }
        else { holder := h, a := rest, b := s.b }, e)

/-- Runs a schedule (the list of the tasks to step, in order) to the end of both calls and
returns the global event order, each event tagged with its task; `none` if the schedule steps
a task that is blocked or finished, or stops early. -/
def run_sched : List Bool → Sys → Option (List (Bool × Ev))
  | [], s => if s.a = [] ∧ s.b = [] then some [] else none
  | t :: ts, s =>
    match sched_step s t with
    | none => none
    | some (s1, e) => (run_sched ts s1).map (fun m => (t, e) :: m)

/-- Position `i` of the global order is a pin event of task `t`. -/
def pin_at (m : List (Bool × Ev)) (t : Bool) (i : Nat) : Prop :=
  ∃ v, m[i]? = some (t, Ev.gpiod_set_value v)

/-- The pin events of the two calls do not interleave: every pin event of one call comes
after every pin event of the other. -/
def serialized (m : List (Bool × Ev)) : Prop :=
  (∀ i j, pin_at m false i → pin_at m true j → i < j) ∨
  (∀ i j, pin_at m false i → pin_at m true j → j < i)

/-- The trace of a blocking transmit call that finds the mutex free and succeeds. -/
def transmit_prog (utc : tm) : List Ev :=
  (wwv_ioctl false WWV_TRANSMIT (env_ok utc) Gate.idle).2

/-- The schedule in which the parent runs up to, and not including, its last statement
`gpiod_set_value(wwv_dat->gpio_wwv,0)` (so it has already unlocked), the child then takes the
mutex and runs up to its first pin assert (8 events), the parent issues its last statement, and
the child runs to its end. -/
def late_deassert_sched (na nb : Nat) : List Bool :=
  List.replicate (na - 1) false ++ List.replicate 8 true ++ [false] ++
    List.replicate (nb - 8) true

/-- The mutex after task `t` alone issues the events `es`, or `none` if it gets blocked. -/
def solo_after (t : Bool) : Option Bool → List Ev → Option (Option Bool)
  | h, [] => some h
  | h, e :: es =>
    match mutex_after h t e with
    | none => none
    | some h1 => solo_after t h1 es

/-- The events of a successful transmit call before its encoder runs. -/
def prog_head : List Ev :=
  [Ev.mutex_acquire, Ev.kmalloc true, Ev.kmalloc true, Ev.copy_from_user true,
    Ev.call_conv_date, Ev.call_enc_date]

/-- The global order the schedule `late_deassert_sched` produces for two successful transmit
calls with digit records `da` and `db`. -/
def late_deassert_order (da db : wwv_date) : List (Bool × Ev) :=
  (prog_head ++ wwv_enc_date da ++ [Ev.mutex_unlock, Ev.kfree, Ev.kfree]).map
      (fun e => (false, e)) ++
    ((prog_head ++ [Ev.msleep 1000, Ev.gpiod_set_value true]).map (fun e => (true, e)) ++
      ((false, Ev.gpiod_set_value false) ::
        (((wwv_enc_date db).drop 2 ++
          [Ev.mutex_unlock, Ev.kfree, Ev.kfree, Ev.gpiod_set_value false]).map
            (fun e => (true, e)))))

/-- A kernel in which a sleep on the mutex is ended by a signal. -/
def env_signal (utc : tm) : Env :=
  { lock_wait_acquires := false, kmalloc_udtime := true, kmalloc_kdtime := true,
    user_tm := some utc, kdtime_init := date_zero }

/-- The gate while another task transmits: mutex held, pin at the given level. -/
def Gate.busy (pin : Bool) : Gate := { locked := true, pin := pin }

/-- Whether the calling task holds the mutex after an event of its own trace. -/
def held_after (held : Bool) : Ev → Bool
  | Ev.mutex_acquire => true
  | Ev.mutex_unlock => false
  | _ => held

/-- Scans the trace of one call: true when every pin event is issued while the caller holds
the mutex, that is after its `mutex_acquire` and before its `mutex_unlock`. -/
def pins_under_lock : Bool → List Ev → Bool
  | _, [] => true
  | held, e :: es => (!Ev.is_pin e || held) && pins_under_lock (held_after held e) es

/-! ## Reading digits back from slots -/

/-- The binary digit a data slot carries: a one pulse is `1`, anything else `0`. -/
def slot_bit : Slot → Nat
  | Slot.one => 1
  | _ => 0

/-- The value of a field read least-significant bit first. -/
def field_value : List Slot → Nat
  | [] => 0
  | s :: rest => slot_bit s + 2 * field_value rest

/-- The slots `from .. from + width - 1` of a frame, read as one field. -/
def frame_field (s : List Slot) (start width : Nat) : Nat :=
  field_value ((s.drop start).take width)

/-- The four values a receiver recombines from the data slots of a frame (positions as in
the format table of `wwv.c`): the year digit from slots 4..7, the minute as
`10 * tens + ones` from slots 15..17 and 10..13, the hour from slots 25..27 and 20..23, the day
of year as `100 * hund + 10 * tens + ones` from slots 40..41, 35..38 and 30..33. -/
def decode_frame (s : List Slot) : Nat × Nat × Nat × Nat :=
  (frame_field s 4 4,
   10 * frame_field s 15 3 + frame_field s 10 4,
   10 * frame_field s 25 3 + frame_field s 20 4,
   100 * frame_field s 40 2 + 10 * frame_field s 35 4 + frame_field s 30 4)

/-- The same time of day and day of year as `utc_2021`, ten years later. -/
def utc_2031 : tm :=
  { tm_sec := 30, tm_min := 5, tm_hour := 14, tm_mday := 1, tm_mon := 0,
    tm_year := 131, tm_wday := 3, tm_yday := 1 }

/-! ## Reading a trace as timed slots -/

/-- Reads a pin trace as slots together with the nominal length of each in microseconds,
with `n` the number of drive cycles and `t` the time elapsed in the slot being read: each
drive cycle adds its two half-cycle sleeps, the idle `usleep_range` that closes a pulse slot
adds its own nominal time, and an `msleep` of whole seconds is that many blank slots of
1 000 000 us. -/
def read_timed : Nat → Nat → List Ev → Option (List (Slot × Nat))
  | n, _, [] => if n = 0 then some [] else none
  | n, t, e :: rest =>
    match e with
    | Ev.msleep ms =>
      if n = 0 ∧ ms % 1000 = 0 then
        (read_timed 0 0 rest).map
          (fun s => List.replicate (ms / 1000) (Slot.blank, 1000000) ++ s)
      else none
    | Ev.gpiod_set_value true =>
      match rest with
      | Ev.usleep_range 4995 5005 :: Ev.gpiod_set_value false ::
          Ev.usleep_range 4995 5005 :: rest2 =>
        read_timed (n + 1)
          (t + nominal_us (Ev.usleep_range 4995 5005) + nominal_us (Ev.usleep_range 4995 5005))
          rest2
      | _ => none
    | Ev.usleep_range lo hi =>
      match classify n with
      | some s => (read_timed 0 0 rest).map (fun l => (s, t + nominal_us (Ev.usleep_range lo hi)) :: l)
      | none => none
    | _ => none

/-- The nominal length in microseconds of the slots the encoder emits: a blank slot is one
second of `msleep`, a pulse slot is its drive cycles plus its idle delay. -/
def emitted_slot_us : Slot → Nat
  | Slot.blank => 1000000
  | Slot.zero => ZBIT.toNat * 10000 + ZDELAY
  | Slot.one => OBIT.toNat * 10000 + ODELAY
  | Slot.pos => PINDEX.toNat * 10000 + PDELAY

/-- A slot paired with the length the encoder gives it. -/
def timed_slot (s : Slot) : Slot × Nat := (s, emitted_slot_us s)

/-! ## Theorems -/

/-- The return value of `wwv_conv_date` is `0` or `1`, decided by the three range tests. -/
theorem conv_date_ret (utc : tm) (dtime : wwv_date) :
    (wwv_conv_date utc dtime).1 =
      if (0 ≤ utc.tm_min ∧ utc.tm_min ≤ 59) ∧ (0 ≤ utc.tm_hour ∧ utc.tm_hour ≤ 23) ∧
          (0 ≤ utc.tm_yday ∧ utc.tm_yday ≤ 366) then 0 else 1 := by
  unfold wwv_conv_date
  split_ifs <;> first | rfl | (exfalso; omega)

/-- C1. `wwv_conv_date` returns `0` exactly when `0 ≤ tm_min ≤ 59`, `0 ≤ tm_hour ≤ 23` and
`0 ≤ tm_yday ≤ 366`, and `1` otherwise, whatever `tm_year` (and the other fields) hold; minute 60,
hour -1 and day of year 400 are each rejected. -/
theorem C1_conv_date_accepts_iff_in_range :
    (∀ (utc : tm) (dtime : wwv_date),
      ((wwv_conv_date utc dtime).1 = 0 ↔
        (0 ≤ utc.tm_min ∧ utc.tm_min ≤ 59) ∧ (0 ≤ utc.tm_hour ∧ utc.tm_hour ≤ 23) ∧
          (0 ≤ utc.tm_yday ∧ utc.tm_yday ≤ 366)) ∧
      ((wwv_conv_date utc dtime).1 ≠ 0 ↔ (wwv_conv_date utc dtime).1 = 1)) ∧
    (∀ (utc : tm) (dtime : wwv_date),
      (wwv_conv_date { utc with tm_min := 60 } dtime).1 = 1 ∧
      (wwv_conv_date { utc with tm_hour := -1 } dtime).1 = 1 ∧
      (wwv_conv_date { utc with tm_yday := 400 } dtime).1 = 1) := by
  refine ⟨fun utc dtime => ?_, fun utc dtime => ?_⟩
  · rw [conv_date_ret]
    split_ifs with h
    · simp [h]
    · simp [h]
  · simp [conv_date_ret]

/-- An accepted timestamp has its three validated fields in range. -/
theorem conv_date_accept_range {utc : tm} {dtime d : wwv_date}
    (h : wwv_conv_date utc dtime = (0, d)) :
    (0 ≤ utc.tm_min ∧ utc.tm_min ≤ 59) ∧ (0 ≤ utc.tm_hour ∧ utc.tm_hour ≤ 23) ∧
      (0 ≤ utc.tm_yday ∧ utc.tm_yday ≤ 366) := by
  have h1 : (wwv_conv_date utc dtime).1 = 0 := by rw [h]
  rw [conv_date_ret] at h1
  by_contra hn
  rw [if_neg hn] at h1
  exact absurd h1 (by decide)

/-- On an accepted timestamp the digit record is the one the last statement block writes. -/
theorem conv_date_accept_digits {utc : tm} {dtime d : wwv_date}
    (h : wwv_conv_date utc dtime = (0, d)) :
    d = { year := Int.tmod (wrap_long (utc.tm_year + 1900)) 10
          min_ones := Int.tmod utc.tm_min 10
          min_tens := Int.tdiv utc.tm_min 10
          hour_ones := Int.tmod utc.tm_hour 10
          hour_tens := Int.tdiv utc.tm_hour 10
          day_ones := Int.tmod utc.tm_yday 10
          day_tens := Int.tdiv (Int.tmod utc.tm_yday 100) 10
          day_hund := Int.tdiv utc.tm_yday 100 } := by
  unfold wwv_conv_date at h
  split_ifs at h
  · exact absurd (congrArg Prod.fst h) (by simp)
  · exact absurd (congrArg Prod.fst h) (by simp)
  · exact absurd (congrArg Prod.fst h) (by simp)
  · exact (congrArg Prod.snd h).symm

/-- Without overflow the wrapped sum is the sum itself. -/
theorem wrap_long_of_range {x : Int} (h0 : -2147483648 ≤ x) (h1 : x ≤ 2147483647) :
    wrap_long x = x := by
  unfold wrap_long
  omega

theorem read_cycle (n : Nat) (rest : List Ev) :
    read_slots n (Ev.gpiod_set_value true :: Ev.usleep_range 4995 5005 ::
      Ev.gpiod_set_value false :: Ev.usleep_range 4995 5005 :: rest) = read_slots (n + 1) rest := by
  simp [read_slots]

theorem read_drivepin_loop (k n : Nat) (rest : List Ev) :
    read_slots n (drivepin_loop k ++ rest) = read_slots (n + k) rest := by
  induction k generalizing n with
  | zero => simp [drivepin_loop]
  | succ k ih =>
    simp only [drivepin_loop, List.cons_append, List.nil_append, List.append_assoc]
    rw [read_cycle, ih]
    congr 1
    omega

theorem read_idle (n lo hi : Nat) (rest : List Ev) :
    read_slots n (Ev.usleep_range lo hi :: rest) =
      match classify n with
      | some s => (read_slots 0 rest).map (fun l => s :: l)
      | none => none := by
  simp [read_slots]

theorem read_msleep (k : Nat) (rest : List Ev) :
    read_slots 0 (Ev.msleep (k * 1000) :: rest) =
      (read_slots 0 rest).map (fun s => List.replicate k Slot.blank ++ s) := by
  simp [read_slots]

theorem bit_test_iff (v : Int) (i : Nat) (hlo : -16 < v) (hhi : v < 16) (hi : i < 4) :
    (int_bits v &&& (1 <<< i) ≠ 0) ↔ (v / 2 ^ i) % 2 = 1 := by
  interval_cases v <;> interval_cases i <;> decide

theorem read_zero_slot (rest : List Ev) :
    read_slots 0 (wwv_drivepin ZBIT ++ Ev.usleep_range ZDELAY (ZDELAY + 1) :: rest) =
      (read_slots 0 rest).map (fun l => Slot.zero :: l) := by
  have h : (ZBIT : Int).toNat = 18 := by decide
  simp only [wwv_drivepin, h, read_drivepin_loop, read_idle]
  rfl

theorem read_one_slot (rest : List Ev) :
    read_slots 0 (wwv_drivepin OBIT ++ Ev.usleep_range ODELAY (ODELAY + 1) :: rest) =
      (read_slots 0 rest).map (fun l => Slot.one :: l) := by
  have h : (OBIT : Int).toNat = 48 := by decide
  simp only [wwv_drivepin, h, read_drivepin_loop, read_idle]
  rfl

theorem read_pos_slot (rest : List Ev) :
    read_slots 0 (wwv_drivepin PINDEX ++ Ev.usleep_range PDELAY (PDELAY + 1) :: rest) =
      (read_slots 0 rest).map (fun l => Slot.pos :: l) := by
  have h : (PINDEX : Int).toNat = 78 := by decide
  simp only [wwv_drivepin, h, read_drivepin_loop, read_idle]
  rfl

theorem read_enc_bcd_loop (v : Int) (hlo : -16 < v) (hhi : v < 16) (n i : Nat)
    (hn : n + i ≤ 4) (rest : List Ev) :
    read_slots 0 (enc_bcd_loop v n i ++ rest) =
      (read_slots 0 rest).map (fun l => (List.range' i n).map (bcd_bit v) ++ l) := by
  induction n generalizing i with
  | zero => simp [enc_bcd_loop]
  | succ n ih =>
    have hi : i < 4 := by omega
    simp only [enc_bcd_loop]
    by_cases hb : int_bits v &&& (1 <<< i) ≠ 0
    · have hs : bcd_bit v i = Slot.one := by
        unfold bcd_bit
        rw [if_pos ((bit_test_iff v i hlo hhi hi).1 hb)]
      rw [if_pos hb]
      simp only [List.append_assoc, List.singleton_append, List.cons_append, List.nil_append]
      rw [read_one_slot, ih (i + 1) (by omega)]
      simp [List.range', hs, Option.map_map, Function.comp_def]
    · have hs : bcd_bit v i = Slot.zero := by
        unfold bcd_bit
        rw [if_neg (fun h => hb ((bit_test_iff v i hlo hhi hi).2 h))]
      rw [if_neg hb]
      simp only [List.append_assoc, List.singleton_append, List.cons_append, List.nil_append]
      rw [read_zero_slot, ih (i + 1) (by omega)]
      simp [List.range', hs, Option.map_map, Function.comp_def]

theorem read_enc_bcd (v : Int) (hlo : -16 < v) (hhi : v < 16) (places : Int) (w : Nat)
    (hw : places.toNat = w) (hp : w ≤ 4) (rest : List Ev) :
    read_slots 0 (wwv_enc_bcd v places ++ rest) =
      (read_slots 0 rest).map (fun l => bcd_field v w ++ l) := by
  unfold wwv_enc_bcd bcd_field
  rw [hw, read_enc_bcd_loop v hlo hhi w 0 (by omega), List.range_eq_range']

theorem tmod_ten_bounds (x : Int) : -10 < Int.tmod x 10 ∧ Int.tmod x 10 < 10 := by
  rcases x with n | n
  · have h1 := Int.tmod_nonneg 10 (Int.ofNat_nonneg n)
    have h2 := Int.tmod_lt_of_pos (Int.ofNat n) (by norm_num : (0 : Int) < 10)
    simp only [Int.ofNat_eq_coe] at h1 h2 ⊢
    omega
  · have h : Int.tmod (Int.negSucc n) 10 = -(((n + 1) % 10 : Nat) : Int) := rfl
    rw [h]
    omega

theorem conv_date_small_digits {utc : tm} {dtime d : wwv_date}
    (h : wwv_conv_date utc dtime = (0, d)) : small_digits d := by
  obtain ⟨⟨hm0, hm1⟩, ⟨hh0, hh1⟩, ⟨hd0, hd1⟩⟩ := conv_date_accept_range h
  have hy := tmod_ten_bounds (wrap_long (utc.tm_year + 1900))
  rw [conv_date_accept_digits h]
  unfold small_digits
  simp only
  rw [Int.tmod_eq_emod hm0 (by norm_num),
    Int.tdiv_eq_ediv hm0 (by norm_num), Int.tmod_eq_emod hh0 (by norm_num),
    Int.tdiv_eq_ediv hh0 (by norm_num), Int.tmod_eq_emod hd0 (by norm_num),
    Int.tmod_eq_emod hd0 (by norm_num), Int.tdiv_eq_ediv hd0 (by norm_num),
    Int.tdiv_eq_ediv (Int.emod_nonneg _ (by norm_num)) (by norm_num)]
  omega

theorem read_enc_date (d : wwv_date) (hd : small_digits d) :
    read_slots 0 (wwv_enc_date d) = some (frame_layout d) := by
  obtain ⟨⟨y0, y1⟩, ⟨a0, a1⟩, ⟨b0, b1⟩, ⟨c0, c1⟩, ⟨e0, e1⟩, ⟨f0, f1⟩, ⟨g0, g1⟩, ⟨k0, k1⟩⟩ := hd
  have z1 : ∀ rest, read_slots 0 (wwv_enc_bcd 0 1 ++ rest) =
      (read_slots 0 rest).map (fun l => [Slot.zero] ++ l) := fun rest =>
    read_enc_bcd 0 (by norm_num) (by norm_num) 1 1 rfl (by norm_num) rest
  have z3 : ∀ rest, read_slots 0 (wwv_enc_bcd 0 3 ++ rest) =
      (read_slots 0 rest).map (fun l => List.replicate 3 Slot.zero ++ l) := fun rest =>
    read_enc_bcd 0 (by norm_num) (by norm_num) 3 3 rfl (by norm_num) rest
  unfold wwv_enc_date seg_p1 seg_p2 seg_p3 seg_p4 seg_p5 ssleep frame_layout
  simp only [List.append_assoc, List.singleton_append, List.cons_append, List.nil_append]
  rw [show (1000 : Nat) = 1 * 1000 from rfl, read_msleep, z3,
    read_enc_bcd d.year y0 y1 4 4 rfl (by norm_num), z1, read_pos_slot,
    read_enc_bcd d.min_ones a0 a1 4 4 rfl (by norm_num), z1,
    read_enc_bcd d.min_tens b0 b1 3 3 rfl (by norm_num), z1, read_pos_slot,
    read_enc_bcd d.hour_ones c0 c1 4 4 rfl (by norm_num), z1,
    read_enc_bcd d.hour_tens e0 e1 3 3 rfl (by norm_num), z1, read_pos_slot,
    read_enc_bcd d.day_ones f0 f1 4 4 rfl (by norm_num), z1,
    read_enc_bcd d.day_tens g0 g1 4 4 rfl (by norm_num), read_pos_slot,
    read_enc_bcd d.day_hund k0 k1 2 2 rfl (by norm_num), z3, read_msleep, read_msleep]
  simp [read_slots]

theorem frame_layout_length (d : wwv_date) : (frame_layout d).length = 60 := by
  simp [frame_layout, bcd_field]

/-- The trace of an accepted timestamp reads, slot by slot, as the frame layout, which has
60 slots. -/
theorem enc_date_reads_as_frame_layout (utc : tm) (dtime d : wwv_date)
    (hacc : wwv_conv_date utc dtime = (0, d)) :
    read_slots 0 (wwv_enc_date d) = some (frame_layout d) ∧ (frame_layout d).length = 60 :=
  ⟨read_enc_date d (conv_date_small_digits hacc), frame_layout_length d⟩

/-! ### The encoder only writes the pin and sleeps -/

theorem drivepin_loop_pin_or_sleep (n : Nat) :
    ∀ e ∈ drivepin_loop n, Ev.is_pin_or_sleep e = true := by
  induction n with
  | zero => simp [drivepin_loop]
  | succ n ih =>
    intro e he
    simp only [drivepin_loop, List.cons_append, List.nil_append, List.mem_cons] at he
    rcases he with rfl | rfl | rfl | rfl | he
    · rfl
    · rfl
    · rfl
    · rfl
    · exact ih e he

theorem enc_bcd_loop_pin_or_sleep (val : Int) (n i : Nat) :
    ∀ e ∈ enc_bcd_loop val n i, Ev.is_pin_or_sleep e = true := by
  induction n generalizing i with
  | zero => simp [enc_bcd_loop]
  | succ n ih =>
    intro e he
    simp only [enc_bcd_loop, List.mem_append] at he
    rcases he with he | he
    · split_ifs at he
      · simp only [List.mem_append, List.mem_singleton] at he
        rcases he with he | rfl
        · exact drivepin_loop_pin_or_sleep _ e he
        · rfl
      · simp only [List.mem_append, List.mem_singleton] at he
        rcases he with he | rfl
        · exact drivepin_loop_pin_or_sleep _ e he
        · rfl
    · exact ih (i + 1) e he

theorem enc_date_pin_or_sleep (d : wwv_date) :
    ∀ e ∈ wwv_enc_date d, Ev.is_pin_or_sleep e = true := by
  intro e he
  simp only [wwv_enc_date, seg_p1, seg_p2, seg_p3, seg_p4, seg_p5, ssleep, wwv_enc_bcd,
    wwv_drivepin, List.mem_append, List.mem_singleton] at he
  have hb := fun v n i => enc_bcd_loop_pin_or_sleep v n i e
  have hp := fun n => drivepin_loop_pin_or_sleep n e
  rcases he with he | he
  · rcases he with he | he
    · rcases he with he | he
      · rcases he with he | he
        · rcases he with he | he
          · rcases he with (((rfl | he) | he) | he) | he | rfl
            · rfl
            · exact hb _ _ _ he
            · exact hb _ _ _ he
            · exact hb _ _ _ he
            · exact hp _ he
            · rfl
          · rcases he with (((he | he) | he) | he) | he | rfl
            · exact hb _ _ _ he
            · exact hb _ _ _ he
            · exact hb _ _ _ he
            · exact hb _ _ _ he
            · exact hp _ he
            · rfl
        · rcases he with (((he | he) | he) | he) | he | rfl
          · exact hb _ _ _ he
          · exact hb _ _ _ he
          · exact hb _ _ _ he
          · exact hb _ _ _ he
          · exact hp _ he
          · rfl
      · rcases he with ((he | he) | he) | he | rfl
        · exact hb _ _ _ he
        · exact hb _ _ _ he
        · exact hb _ _ _ he
        · exact hp _ he
        · rfl
    · rcases he with (he | he) | rfl
      · exact hb _ _ _ he
      · exact hb _ _ _ he
      · rfl
  · subst he
    rfl

theorem count_eq_zero_of_pin_or_sleep {t : List Ev} (h : ∀ e ∈ t, Ev.is_pin_or_sleep e = true)
    (x : Ev) (hx : Ev.is_pin_or_sleep x = false) : t.count x = 0 := by
  rw [List.count_eq_zero]
  intro hm
  rw [h x hm] at hx
  exact absurd hx (by decide)

theorem run_append (g : Gate) (a b : List Ev) : g.run (a ++ b) = (g.run a).run b := by
  simp [Gate.run, List.foldl_append]


theorem run_tail (g : Gate) (t : List Ev) :
    g.run (t ++ [Ev.mutex_unlock, Ev.kfree, Ev.kfree, Ev.gpiod_set_value false]) =
      { locked := false, pin := false } := by
  rw [run_append]
  rfl

theorem ioctl_transmit_cases (nonblock : Bool) (env : Env) (g : Gate) :
    (nonblock = true ∧ g.locked = true ∧
      wwv_ioctl nonblock WWV_TRANSMIT env g = (-EAGAIN, [])) ∨
    (g.locked = true ∧ env.lock_wait_acquires = false ∧
      wwv_ioctl nonblock WWV_TRANSMIT env g = (-EINTR, [Ev.mutex_wait])) ∨
    (∃ mid : List Ev, (∀ e ∈ mid, Ev.is_pin e = false) ∧ Ev.call_enc_date ∉ mid ∧
      mid.count Ev.mutex_unlock = 0 ∧ mid.count Ev.mutex_acquire = 0 ∧
      ∃ u k : Bool, ∃ ret : Int, (ret = -ENOMEM ∨ ret = -EFAULT ∨
          (ret = -EINVAL ∧ ∃ utc, env.user_tm = some utc ∧
            (wwv_conv_date utc env.kdtime_init).1 ≠ 0)) ∧
        wwv_ioctl nonblock WWV_TRANSMIT env g = (ret, lock_path g ++ mid ++ fail_path u k)) ∨
    (∃ utc, env.user_tm = some utc ∧ (wwv_conv_date utc env.kdtime_init).1 = 0 ∧
      wwv_ioctl nonblock WWV_TRANSMIT env g =
        (0, lock_path g ++ [Ev.kmalloc true, Ev.kmalloc true, Ev.copy_from_user true,
            Ev.call_conv_date, Ev.call_enc_date] ++
            wwv_enc_date (wwv_conv_date utc env.kdtime_init).2 ++
            [Ev.mutex_unlock, Ev.kfree, Ev.kfree, Ev.gpiod_set_value false])) := by
  unfold wwv_ioctl
  by_cases h1 : nonblock = true ∧ g.locked = true
  · left
    exact ⟨h1.1, h1.2, by rw [if_pos h1]⟩
  · right
    rw [if_neg h1, if_pos rfl]
    by_cases h2 : g.locked = true ∧ env.lock_wait_acquires = false
    · left
      exact ⟨h2.1, h2.2, by rw [if_pos h2]⟩
    · right
      rw [if_neg h2]
      by_cases h3 : env.kmalloc_udtime = false
      · left
        rw [if_pos h3]
        exact ⟨[Ev.kmalloc false], by decide, by decide, by decide, by decide, false, false,
          -ENOMEM, Or.inl rfl, rfl⟩
      · rw [if_neg h3]
        by_cases h4 : env.kmalloc_kdtime = false
        · left
          rw [if_pos h4]
          exact ⟨[Ev.kmalloc true, Ev.kmalloc false], by decide, by decide, by decide,
            by decide, true, false, -ENOMEM, Or.inl rfl, rfl⟩
        · rw [if_neg h4]
          cases hu : env.user_tm with
          | none =>
            left
            exact ⟨[Ev.kmalloc true, Ev.kmalloc true, Ev.copy_from_user false], by decide,
              by decide, by decide, by decide, true, true, -EFAULT, Or.inr (Or.inl rfl), rfl⟩
          | some utc =>
            by_cases h5 : (wwv_conv_date utc env.kdtime_init).1 ≠ 0
            · left
              refine ⟨[Ev.kmalloc true, Ev.kmalloc true, Ev.copy_from_user true,
                Ev.call_conv_date], by decide, by decide, by decide, by decide, true, true,
                -EINVAL, Or.inr (Or.inr ⟨rfl, utc, rfl, h5⟩), ?_⟩
              simp only [if_pos h5]
            · right
              refine ⟨utc, rfl, not_not.mp h5, ?_⟩
              simp only [if_neg h5]


theorem run_pin_of_no_pin (t : List Ev) (h : ∀ e ∈ t, Ev.is_pin e = false) (g : Gate) :
    (g.run t).pin = g.pin := by
  induction t generalizing g with
  | nil => rfl
  | cons e t ih =>
    have he : (g.step e).pin = g.pin := by
      have h1 := h e (List.mem_cons_self _ _)
      cases e <;> first | rfl | exact absurd h1 (by simp [Ev.is_pin])
    show ((g.step e).run t).pin = g.pin
    rw [ih (fun x hx => h x (List.mem_cons_of_mem _ hx)), he]

theorem run_fail_path (g : Gate) (u k : Bool) :
    g.run (fail_path u k) = { locked := false, pin := g.pin } := by
  cases u <;> cases k <;> rfl

theorem lock_path_no_pin (g : Gate) : ∀ e ∈ lock_path g, Ev.is_pin e = false := by
  intro e he
  unfold lock_path at he
  cases hl : g.locked <;> simp [hl] at he
  · subst he
    rfl
  · rcases he with rfl | rfl <;> rfl

theorem count_lock_path (g : Gate) :
    (lock_path g).count Ev.mutex_unlock = 0 ∧ (lock_path g).count Ev.mutex_acquire = 1 ∧
      Ev.call_enc_date ∉ lock_path g := by
  unfold lock_path
  cases g.locked <;> decide

theorem count_fail_path (u k : Bool) :
    (fail_path u k).count Ev.mutex_unlock = 1 ∧ (fail_path u k).count Ev.mutex_acquire = 0 ∧
      (∀ e ∈ fail_path u k, Ev.is_pin e = false) ∧ Ev.call_enc_date ∉ fail_path u k := by
  cases u <;> cases k <;> decide

/-- C4. A transmit call of `wwv_ioctl` that starts with the pin deasserted and either finds the
gate idle or takes the mutex after waiting does take the mutex, and on return, on every path
(full transmission, either allocation failure, copy failure, invalid date), the pin is
deasserted, the mutex is unlocked, and the call has unlocked the mutex exactly once. -/
theorem C4_ioctl_exit_pin_low_unlocked_once (nonblock : Bool) (env : Env) (g : Gate)
    (hpin : g.pin = false)
    (hacq : g.locked = false ∨ Ev.mutex_acquire ∈ (wwv_ioctl nonblock WWV_TRANSMIT env g).2) :
    Ev.mutex_acquire ∈ (wwv_ioctl nonblock WWV_TRANSMIT env g).2 ∧
    (g.run (wwv_ioctl nonblock WWV_TRANSMIT env g).2).pin = false ∧
    (g.run (wwv_ioctl nonblock WWV_TRANSMIT env g).2).locked = false ∧
    (wwv_ioctl nonblock WWV_TRANSMIT env g).2.count Ev.mutex_unlock = 1 ∧
    (wwv_ioctl nonblock WWV_TRANSMIT env g).2.count Ev.mutex_acquire = 1 ∧
    ((wwv_ioctl nonblock WWV_TRANSMIT env g).1 = 0 ∨
      (wwv_ioctl nonblock WWV_TRANSMIT env g).1 = -ENOMEM ∨
      (wwv_ioctl nonblock WWV_TRANSMIT env g).1 = -EFAULT ∨
      (wwv_ioctl nonblock WWV_TRANSMIT env g).1 = -EINVAL) := by
  rcases ioctl_transmit_cases nonblock env g with
    ⟨_, hl, h⟩ | ⟨hl, _, h⟩ | ⟨mid, hm1, _, hm3, hm4, u, k, ret, hret, h⟩ | ⟨utc, _, _, h⟩
  · rw [h, hl] at hacq
    exact absurd hacq (by decide)
  · rw [h, hl] at hacq
    exact absurd hacq (by decide)
  · rw [h]
    obtain ⟨hl1, hl2, _⟩ := count_lock_path g
    obtain ⟨hf1, hf2, _, _⟩ := count_fail_path u k
    refine ⟨?_, ?_, ?_, ?_, ?_, ?_⟩
    · show Ev.mutex_acquire ∈ lock_path g ++ mid ++ fail_path u k
      rw [List.append_assoc]
      exact List.mem_append_left _ (List.count_pos_iff.mp (by omega))
    · show (g.run (lock_path g ++ mid ++ fail_path u k)).pin = false
      rw [run_append, run_fail_path, run_append]
      show ((g.run (lock_path g)).run mid).pin = false
      rw [run_pin_of_no_pin mid hm1, run_pin_of_no_pin _ (lock_path_no_pin g), hpin]
    · show (g.run (lock_path g ++ mid ++ fail_path u k)).locked = false
      rw [run_append, run_fail_path]
    · show (lock_path g ++ mid ++ fail_path u k).count Ev.mutex_unlock = 1
      rw [List.count_append, List.count_append, hl1, hm3, hf1]
    · show (lock_path g ++ mid ++ fail_path u k).count Ev.mutex_acquire = 1
      rw [List.count_append, List.count_append, hl2, hm4, hf2]
    · rcases hret with rfl | rfl | ⟨rfl, _⟩
      · exact Or.inr (Or.inl rfl)
      · exact Or.inr (Or.inr (Or.inl rfl))
      · exact Or.inr (Or.inr (Or.inr rfl))
  · rw [h]
    obtain ⟨hl1, hl2, _⟩ := count_lock_path g
    have he := enc_date_pin_or_sleep (wwv_conv_date utc env.kdtime_init).2
    refine ⟨?_, ?_, ?_, ?_, ?_, Or.inl rfl⟩
    · show Ev.mutex_acquire ∈ lock_path g ++ _ ++ wwv_enc_date _ ++ _
      rw [List.append_assoc, List.append_assoc]
      exact List.mem_append_left _ (List.count_pos_iff.mp (by omega))
    · show (g.run (_ ++ [Ev.mutex_unlock, Ev.kfree, Ev.kfree, Ev.gpiod_set_value false])).pin
        = false
      rw [run_tail]
    · show (g.run (_ ++ [Ev.mutex_unlock, Ev.kfree, Ev.kfree,
        Ev.gpiod_set_value false])).locked = false
      rw [run_tail]
    · show (lock_path g ++ _ ++ wwv_enc_date _ ++ _).count Ev.mutex_unlock = 1
      rw [List.count_append, List.count_append, List.count_append, hl1,
        count_eq_zero_of_pin_or_sleep he Ev.mutex_unlock rfl]
      rfl
    · show (lock_path g ++ _ ++ wwv_enc_date _ ++ _).count Ev.mutex_acquire = 1
      rw [List.count_append, List.count_append, List.count_append, hl2,
        count_eq_zero_of_pin_or_sleep he Ev.mutex_acquire rfl]
      rfl

/-- C4, instance: the full transmission of the 2021 timestamp from the idle gate. -/
theorem C4_ioctl_exit_pin_low_unlocked_once_witness :
    Gate.idle.pin = false ∧ Gate.idle.locked = false ∧
    Ev.mutex_acquire ∈ (wwv_ioctl false WWV_TRANSMIT (env_ok utc_2021) Gate.idle).2 ∧
    (wwv_ioctl false WWV_TRANSMIT (env_ok utc_2021) Gate.idle).1 = 0 ∧
    (Gate.idle.run (wwv_ioctl false WWV_TRANSMIT (env_ok utc_2021) Gate.idle).2).pin = false ∧
    (Gate.idle.run (wwv_ioctl false WWV_TRANSMIT (env_ok utc_2021) Gate.idle).2).locked
      = false ∧
    (wwv_ioctl false WWV_TRANSMIT (env_ok utc_2021) Gate.idle).2.count Ev.mutex_unlock = 1 :=
  have h := C4_ioctl_exit_pin_low_unlocked_once false (env_ok utc_2021) Gate.idle rfl
    (Or.inl rfl)
  ⟨rfl, rfl, h.1, by decide, h.2.1, h.2.2.1, h.2.2.2.1⟩


/-- C5. With the file opened `O_NONBLOCK` and the mutex held, `wwv_ioctl` (for the transmit
request, and in fact for any request code) returns `-EAGAIN` with an empty trace: the mutex is
neither taken nor released, `wwv_conv_date` and `wwv_enc_date` are not called, no pin event is
issued, and the gate is as before, still locked. -/
theorem C5_ioctl_nonblock_busy (cmd : Nat) (env : Env) (g : Gate) (hbusy : g.locked = true) :
    wwv_ioctl true WWV_TRANSMIT env g = (-EAGAIN, []) ∧
    wwv_ioctl true cmd env g = (-EAGAIN, []) ∧
    -EAGAIN = (-11 : Int) ∧
    g.run (wwv_ioctl true WWV_TRANSMIT env g).2 = g ∧
    (g.run (wwv_ioctl true WWV_TRANSMIT env g).2).locked = true := by
  have h : ∀ c, wwv_ioctl true c env g = (-EAGAIN, []) := by
    intro c
    unfold wwv_ioctl
    rw [if_pos ⟨rfl, hbusy⟩]
  refine ⟨h _, h _, rfl, ?_, ?_⟩
  · rw [h]
    rfl
  · rw [h]
    exact hbusy

/-- C5, instance: a non-blocking transmit request while the mutex is held and the pin is
high. -/
theorem C5_ioctl_nonblock_busy_witness :
    ({ locked := true, pin := true } : Gate).locked = true ∧
    wwv_ioctl true WWV_TRANSMIT (env_ok utc_2021) { locked := true, pin := true } =
      (-EAGAIN, []) :=
  ⟨rfl, (C5_ioctl_nonblock_busy 0 (env_ok utc_2021) { locked := true, pin := true } rfl).1⟩

/-- C6. A transmit call whose mutex acquisition succeeds and whose timestamp `wwv_conv_date`
rejects returns `-EINVAL`, issues no pin event and never calls the encoder, and has released
the mutex when it returns (the pin is as it was); an immediately following transmit call with
a valid timestamp then takes the mutex without sleeping on it, whatever signals are pending, and
returns `0`. -/
theorem C6_ioctl_invalid_date_unwinds (nonblock : Bool) (env : Env) (g : Gate) (utc : tm)
    (hu : env.user_tm = some utc) (ha1 : env.kmalloc_udtime = true)
    (ha2 : env.kmalloc_kdtime = true)
    (hrej : (wwv_conv_date utc env.kdtime_init).1 ≠ 0)
    (hacq : g.locked = false ∨ (nonblock = false ∧ env.lock_wait_acquires = true)) :
    (wwv_ioctl nonblock WWV_TRANSMIT env g).1 = -EINVAL ∧
    Ev.mutex_acquire ∈ (wwv_ioctl nonblock WWV_TRANSMIT env g).2 ∧
    (∀ e ∈ (wwv_ioctl nonblock WWV_TRANSMIT env g).2, Ev.is_pin e = false) ∧
    Ev.call_enc_date ∉ (wwv_ioctl nonblock WWV_TRANSMIT env g).2 ∧
    (g.run (wwv_ioctl nonblock WWV_TRANSMIT env g).2).locked = false ∧
    (g.run (wwv_ioctl nonblock WWV_TRANSMIT env g).2).pin = g.pin ∧
    ∀ (nonblock2 : Bool) (env2 : Env) (utc2 : tm), env2.user_tm = some utc2 →
      env2.kmalloc_udtime = true → env2.kmalloc_kdtime = true →
      (wwv_conv_date utc2 env2.kdtime_init).1 = 0 →
      (wwv_ioctl nonblock2 WWV_TRANSMIT env2
          (g.run (wwv_ioctl nonblock WWV_TRANSMIT env g).2)).1 = 0 ∧
      Ev.mutex_wait ∉ (wwv_ioctl nonblock2 WWV_TRANSMIT env2
          (g.run (wwv_ioctl nonblock WWV_TRANSMIT env g).2)).2 ∧
      (wwv_ioctl nonblock2 WWV_TRANSMIT env2
          (g.run (wwv_ioctl nonblock WWV_TRANSMIT env g).2)).2.head? =
        some Ev.mutex_acquire := by
  have h1 : ¬ (nonblock = true ∧ g.locked = true) := by
    rintro ⟨hn, hl⟩
    rcases hacq with h | ⟨h, _⟩
    · rw [hl] at h
      exact absurd h (by decide)
    · rw [hn] at h
      exact absurd h (by decide)
  have h2 : ¬ (g.locked = true ∧ env.lock_wait_acquires = false) := by
    rintro ⟨hl, hw⟩
    rcases hacq with h | ⟨_, h⟩
    · rw [hl] at h
      exact absurd h (by decide)
    · rw [hw] at h
      exact absurd h (by decide)
  have ht : wwv_ioctl nonblock WWV_TRANSMIT env g =
      (-EINVAL, lock_path g ++ [Ev.kmalloc true, Ev.kmalloc true, Ev.copy_from_user true,
        Ev.call_conv_date] ++ fail_path true true) := by
    unfold wwv_ioctl
    rw [if_neg h1, if_pos rfl, if_neg h2, if_neg (by simp [ha1]), if_neg (by simp [ha2]), hu]
    simp only [if_pos hrej]
  have hrun : g.run (wwv_ioctl nonblock WWV_TRANSMIT env g).2 =
      { locked := false, pin := g.pin } := by
    rw [ht]
    show g.run (lock_path g ++ _ ++ fail_path true true) = _
    rw [run_append, run_fail_path, run_append,
      run_pin_of_no_pin _ (by decide), run_pin_of_no_pin _ (lock_path_no_pin g)]
  obtain ⟨_, hl2, hl3⟩ := count_lock_path g
  refine ⟨by rw [ht], ?_, ?_, ?_, by rw [hrun], by rw [hrun], ?_⟩
  · rw [ht]
    show Ev.mutex_acquire ∈ lock_path g ++ _ ++ fail_path true true
    rw [List.append_assoc]
    exact List.mem_append_left _ (List.count_pos_iff.mp (by omega))
  · rw [ht]
    intro e he
    simp only [List.mem_append] at he
    rcases he with (he | he) | he
    · exact lock_path_no_pin g e he
    · revert e
      decide
    · revert e
      decide
  · rw [ht]
    simp only [List.mem_append, not_or]
    exact ⟨⟨hl3, by decide⟩, by decide⟩
  · intro nonblock2 env2 utc2 hu2 hb1 hb2 hok
    rw [hrun]
    have ht2 : wwv_ioctl nonblock2 WWV_TRANSMIT env2 { locked := false, pin := g.pin } =
        (0, lock_path { locked := false, pin := g.pin } ++ [Ev.kmalloc true, Ev.kmalloc true,
            Ev.copy_from_user true, Ev.call_conv_date, Ev.call_enc_date] ++
            wwv_enc_date (wwv_conv_date utc2 env2.kdtime_init).2 ++
            [Ev.mutex_unlock, Ev.kfree, Ev.kfree, Ev.gpiod_set_value false]) := by
      unfold wwv_ioctl
      rw [if_neg (by simp), if_pos rfl, if_neg (by simp), if_neg (by simp [hb1]),
        if_neg (by simp [hb2]), hu2]
      simp only [hok, ne_eq, not_true_eq_false, if_false]
    rw [ht2]
    refine ⟨rfl, ?_, rfl⟩
    have he := enc_date_pin_or_sleep (wwv_conv_date utc2 env2.kdtime_init).2
    simp only [List.mem_append, not_or]
    refine ⟨⟨⟨by simp [lock_path], by decide⟩, ?_⟩, by decide⟩
    intro hm
    exact absurd (he _ hm) (by decide)

/-- C6, instance: day of year 500 from the idle gate, followed by the 2021 timestamp. -/
theorem C6_ioctl_invalid_date_unwinds_witness :
    (env_ok utc_day_500).user_tm = some utc_day_500 ∧
    (wwv_conv_date utc_day_500 (env_ok utc_day_500).kdtime_init).1 ≠ 0 ∧
    wwv_ioctl false WWV_TRANSMIT (env_ok utc_day_500) Gate.idle =
      (-22, [Ev.mutex_acquire, Ev.kmalloc true, Ev.kmalloc true, Ev.copy_from_user true,
        Ev.call_conv_date, Ev.mutex_unlock, Ev.kfree, Ev.kfree]) ∧
    (Gate.idle.run (wwv_ioctl false WWV_TRANSMIT (env_ok utc_day_500) Gate.idle).2).locked
      = false ∧
    (wwv_ioctl false WWV_TRANSMIT (env_ok utc_2021)
      (Gate.idle.run (wwv_ioctl false WWV_TRANSMIT (env_ok utc_day_500) Gate.idle).2)).1 = 0 :=
  have h := C6_ioctl_invalid_date_unwinds false (env_ok utc_day_500) Gate.idle utc_day_500
    rfl rfl rfl (by decide) (Or.inl rfl)
  ⟨rfl, by decide, by decide, h.2.2.2.2.1,
    (h.2.2.2.2.2.2 false (env_ok utc_2021) utc_2021 rfl rfl rfl (by decide)).1⟩

/-! ### Two concurrent calls -/

theorem run_solo_a (xs : List Ev) (h h1 : Option Bool) (hs : solo_after false h xs = some h1)
    (ts : List Bool) (ra b : List Ev) :
    run_sched (List.replicate xs.length false ++ ts) { holder := h, a := xs ++ ra, b := b } =
      (run_sched ts { holder := h1, a := ra, b := b }).map
        (fun m => xs.map (fun e => (false, e)) ++ m) := by
  induction xs generalizing h with
  | nil =>
    simp only [solo_after, Option.some.injEq] at hs
    subst hs
    simp
  | cons e es ih =>
    simp only [solo_after] at hs
    cases hm : mutex_after h false e with
    | none => simp [hm] at hs
    | some h2 =>
      simp only [hm] at hs
      simp only [List.length_cons, List.replicate_succ, List.cons_append, run_sched, sched_step,
        Bool.false_eq_true, if_false, hm, List.append_eq]
      rw [ih h2 hs]
      simp [Option.map_map, Function.comp_def]

theorem run_solo_b (xs : List Ev) (h h1 : Option Bool) (hs : solo_after true h xs = some h1)
    (ts : List Bool) (a rb : List Ev) :
    run_sched (List.replicate xs.length true ++ ts) { holder := h, a := a, b := xs ++ rb } =
      (run_sched ts { holder := h1, a := a, b := rb }).map
        (fun m => xs.map (fun e => (true, e)) ++ m) := by
  induction xs generalizing h with
  | nil =>
    simp only [solo_after, Option.some.injEq] at hs
    subst hs
    simp
  | cons e es ih =>
    simp only [solo_after] at hs
    cases hm : mutex_after h true e with
    | none => simp [hm] at hs
    | some h2 =>
      simp only [hm] at hs
      simp only [List.length_cons, List.replicate_succ, List.cons_append, run_sched, sched_step,
        if_true, hm, List.append_eq]
      rw [ih h2 hs]
      simp [Option.map_map, Function.comp_def]

theorem solo_append (t : Bool) (h : Option Bool) (xs ys : List Ev) :
    solo_after t h (xs ++ ys) = (solo_after t h xs).bind (fun h1 => solo_after t h1 ys) := by
  induction xs generalizing h with
  | nil => rfl
  | cons e es ih =>
    simp only [List.cons_append, solo_after]
    cases mutex_after h t e with
    | none => rfl
    | some h2 => exact ih h2

theorem solo_pin_or_sleep (t : Bool) (h : Option Bool) (xs : List Ev)
    (hx : ∀ e ∈ xs, Ev.is_pin_or_sleep e = true) : solo_after t h xs = some h := by
  induction xs with
  | nil => rfl
  | cons e es ih =>
    have he := hx e (List.mem_cons_self _ _)
    have hm : mutex_after h t e = some h := by
      cases e <;> first | rfl | exact absurd he (by simp [Ev.is_pin_or_sleep])
    simp only [solo_after, hm]
    exact ih (fun x hx1 => hx x (List.mem_cons_of_mem _ hx1))

theorem enc_date_head (d : wwv_date) :
    wwv_enc_date d = Ev.msleep 1000 :: Ev.gpiod_set_value true :: (wwv_enc_date d).drop 2 := by
  rfl


theorem transmit_prog_eq (utc : tm) (d : wwv_date) (hacc : wwv_conv_date utc date_zero = (0, d)) :
    (wwv_ioctl false WWV_TRANSMIT (env_ok utc) Gate.idle).1 = 0 ∧
    transmit_prog utc = prog_head ++ wwv_enc_date d ++
      [Ev.mutex_unlock, Ev.kfree, Ev.kfree, Ev.gpiod_set_value false] := by
  unfold transmit_prog wwv_ioctl
  simp [env_ok, Gate.idle, lock_path, hacc, prog_head]

theorem late_deassert_run (utca utcb : tm) (da db : wwv_date)
    (ha : wwv_conv_date utca date_zero = (0, da)) (hb : wwv_conv_date utcb date_zero = (0, db)) :
    run_sched (late_deassert_sched (transmit_prog utca).length (transmit_prog utcb).length)
        { holder := none, a := transmit_prog utca, b := transmit_prog utcb } =
      some (late_deassert_order da db) := by
  have ea : transmit_prog utca =
      (prog_head ++ wwv_enc_date da ++ [Ev.mutex_unlock, Ev.kfree, Ev.kfree]) ++
        ([Ev.gpiod_set_value false] ++ []) := by
    rw [(transmit_prog_eq utca da ha).2]
    simp
  have eb : transmit_prog utcb =
      (prog_head ++ [Ev.msleep 1000, Ev.gpiod_set_value true]) ++
        (((wwv_enc_date db).drop 2 ++
          [Ev.mutex_unlock, Ev.kfree, Ev.kfree, Ev.gpiod_set_value false]) ++ []) := by
    rw [(transmit_prog_eq utcb db hb).2]
    conv_lhs => rw [enc_date_head db]
    simp
  have hsched : late_deassert_sched (transmit_prog utca).length (transmit_prog utcb).length =
      List.replicate (prog_head ++ wwv_enc_date da ++
          [Ev.mutex_unlock, Ev.kfree, Ev.kfree]).length false ++
        (List.replicate (prog_head ++ [Ev.msleep 1000, Ev.gpiod_set_value true]).length true ++
          (List.replicate [Ev.gpiod_set_value false].length false ++
            (List.replicate ((wwv_enc_date db).drop 2 ++
              [Ev.mutex_unlock, Ev.kfree, Ev.kfree, Ev.gpiod_set_value false]).length true
              ++ []))) := by
    unfold late_deassert_sched
    rw [ea, eb]
    simp [prog_head]
  have hpa := enc_date_pin_or_sleep da
  have hpb : ∀ e ∈ (wwv_enc_date db).drop 2, Ev.is_pin_or_sleep e = true :=
    fun e he => enc_date_pin_or_sleep db e (List.mem_of_mem_drop he)
  have s1 : solo_after false none
      (prog_head ++ wwv_enc_date da ++ [Ev.mutex_unlock, Ev.kfree, Ev.kfree]) = some none := by
    rw [solo_append, solo_append, show solo_after false none prog_head = some (some false)
      from rfl, Option.some_bind, solo_pin_or_sleep false (some false) _ hpa, Option.some_bind]
    rfl
  have s2 : solo_after true none
      (prog_head ++ [Ev.msleep 1000, Ev.gpiod_set_value true]) = some (some true) := rfl
  have s3 : solo_after false (some true) [Ev.gpiod_set_value false] = some (some true) := rfl
  have s4 : solo_after true (some true) ((wwv_enc_date db).drop 2 ++
      [Ev.mutex_unlock, Ev.kfree, Ev.kfree, Ev.gpiod_set_value false]) = some none := by
    rw [solo_append, solo_pin_or_sleep true (some true) _ hpb, Option.some_bind]
    rfl
  rw [hsched]
  conv_lhs => rw [ea, eb]
  rw [run_solo_a _ none none s1, run_solo_b _ none (some true) s2,
    run_solo_a _ (some true) (some true) s3, run_solo_b _ (some true) none s4]
  simp [run_sched, late_deassert_order]


theorem late_deassert_order_events (da db : wwv_date) :
    ∃ i j, i < j ∧
      (late_deassert_order da db)[i]? = some (false, Ev.gpiod_set_value true) ∧
      (late_deassert_order da db)[j]? = some (true, Ev.gpiod_set_value true) ∧
      (late_deassert_order da db)[j + 1]? = some (false, Ev.gpiod_set_value false) := by
  refine ⟨7, ((prog_head ++ wwv_enc_date da ++
    [Ev.mutex_unlock, Ev.kfree, Ev.kfree]).map (fun e => (false, e))).length + 7,
    Nat.lt_add_of_pos_left (by simp [prog_head]), ?_, ?_, ?_⟩
  · unfold late_deassert_order
    rw [enc_date_head da]
    rfl
  · unfold late_deassert_order
    rw [List.getElem?_append_right (by omega)]
    simp [prog_head]
  · unfold late_deassert_order
    rw [List.getElem?_append_right (by omega)]
    simp [prog_head]

theorem not_serialized_of_events (m : List (Bool × Ev)) (i j : Nat) (hij : i < j)
    (h1 : m[i]? = some (false, Ev.gpiod_set_value true))
    (h2 : m[j]? = some (true, Ev.gpiod_set_value true))
    (h3 : m[j + 1]? = some (false, Ev.gpiod_set_value false)) : ¬ serialized m := by
  rintro (h | h)
  · have := h (j + 1) j ⟨false, h3⟩ ⟨true, h2⟩
    omega
  · have := h i j ⟨true, h1⟩ ⟨true, h2⟩
    omega

/-- C7 (evaluation of the code). Two blocking transmit calls with the valid 2021 timestamp
both return `0`, yet under a schedule the mutex allows their pin events interleave: the parent
unlocks the mutex before its closing `gpiod_set_value(wwv_dat->gpio_wwv,0)`, the child takes
the mutex and asserts the pin for its first pulse, and the parent's closing deassert comes right
after that assert, in the middle of the child's frame. -/
theorem C7_late_deassert_interleaves :
    (wwv_ioctl false WWV_TRANSMIT (env_ok utc_2021) Gate.idle).1 = 0 ∧
    ∃ m, run_sched
        (late_deassert_sched (transmit_prog utc_2021).length (transmit_prog utc_2021).length)
        { holder := none, a := transmit_prog utc_2021, b := transmit_prog utc_2021 } = some m ∧
      (∃ i j, i < j ∧ m[i]? = some (false, Ev.gpiod_set_value true) ∧
        m[j]? = some (true, Ev.gpiod_set_value true) ∧
        m[j + 1]? = some (false, Ev.gpiod_set_value false)) ∧
      ¬ serialized m := by
  have hacc : wwv_conv_date utc_2021 date_zero = (0, date_2021) := by decide
  refine ⟨(transmit_prog_eq utc_2021 date_2021 hacc).1, late_deassert_order date_2021 date_2021,
    late_deassert_run utc_2021 utc_2021 date_2021 date_2021 hacc hacc,
    late_deassert_order_events date_2021 date_2021, ?_⟩
  obtain ⟨i, j, hij, h1, h2, h3⟩ := late_deassert_order_events date_2021 date_2021
  exact not_serialized_of_events _ i j hij h1 h2 h3

/-! ### Pulse timing -/

theorem duration_append (a b : List Ev) : duration_us (a ++ b) = duration_us a + duration_us b := by
  simp [duration_us]

theorem drivepin_loop_eq_cycles (n : Nat) :
    drivepin_loop n = (List.replicate n drive_cycle).flatten := by
  induction n with
  | zero => rfl
  | succ n ih =>
    rw [List.replicate_succ, List.flatten_cons, ← ih]
    rfl

theorem drivepin_loop_counts (n : Nat) :
    (drivepin_loop n).count (Ev.gpiod_set_value true) = n ∧
    (drivepin_loop n).count (Ev.gpiod_set_value false) = n ∧
    duration_us (drivepin_loop n) = n * 10000 := by
  induction n with
  | zero => exact ⟨rfl, rfl, rfl⟩
  | succ n ih =>
    obtain ⟨h1, h2, h3⟩ := ih
    refine ⟨?_, ?_, ?_⟩
    · simp only [drivepin_loop, List.count_append, h1]
      have : List.count (Ev.gpiod_set_value true) [Ev.gpiod_set_value true,
          Ev.usleep_range 4995 5005, Ev.gpiod_set_value false, Ev.usleep_range 4995 5005]
          = 1 := by decide
      omega
    · simp only [drivepin_loop, List.count_append, h2]
      have : List.count (Ev.gpiod_set_value false) [Ev.gpiod_set_value true,
          Ev.usleep_range 4995 5005, Ev.gpiod_set_value false, Ev.usleep_range 4995 5005]
          = 1 := by decide
      omega
    · simp only [drivepin_loop, duration_append, h3]
      have : duration_us [Ev.gpiod_set_value true, Ev.usleep_range 4995 5005,
          Ev.gpiod_set_value false, Ev.usleep_range 4995 5005] = 10000 := by decide
      omega

theorem wwv_drivepin_nat (n : Nat) : wwv_drivepin n = drivepin_loop n := by
  unfold wwv_drivepin
  rw [Int.toNat_ofNat]

theorem enc_bcd_one_pass (val : Int) (i : Nat) :
    enc_bcd_loop val 1 i =
      if int_bits val &&& (1 <<< i) ≠ 0 then
        wwv_drivepin 48 ++ [Ev.usleep_range 530000 530001]
      else wwv_drivepin 18 ++ [Ev.usleep_range 830000 830001] := by
  simp only [enc_bcd_loop, List.append_nil]
  rfl

/-- C8 (evaluation of the code). Counting each half-cycle sleep as 5000 us and each idle
delay as its macro value, every slot the encoder emits lasts 1 010 000 us, not 1 000 000 us:
a zero bit is 18 cycles of 10 ms plus `ZDELAY = 830000`, a one bit 48 cycles plus
`ODELAY = 530000`, a position identifier 78 cycles plus `PDELAY = 230000`. -/
theorem C8_slot_duration_is_1010000_us :
    (∀ (val : Int) (i : Nat), duration_us (enc_bcd_loop val 1 i) = 1010000) ∧
    duration_us (wwv_enc_bcd 0 1) = 1010000 ∧
    duration_us (wwv_enc_bcd 1 1) = 1010000 ∧
    duration_us pos_ident = 1010000 ∧
    ZBIT.toNat * 10000 + ZDELAY = 1010000 ∧
    OBIT.toNat * 10000 + ODELAY = 1010000 ∧
    PINDEX.toNat * 10000 + PDELAY = 1010000 ∧
    (1010000 : Nat) ≠ 1000000 := by
  have h1 : ∀ (val : Int) (i : Nat), duration_us (enc_bcd_loop val 1 i) = 1010000 := by
    intro val i
    rw [enc_bcd_one_pass]
    split_ifs
    · rw [duration_append]
      rw [show wwv_drivepin 48 = drivepin_loop 48 from wwv_drivepin_nat 48,
        (drivepin_loop_counts 48).2.2]
      rfl
    · rw [duration_append]
      rw [show wwv_drivepin 18 = drivepin_loop 18 from wwv_drivepin_nat 18,
        (drivepin_loop_counts 18).2.2]
      rfl
  refine ⟨h1, h1 0 0, h1 1 0, ?_, by decide, by decide, by decide, by decide⟩
  unfold pos_ident
  rw [duration_append, show wwv_drivepin PINDEX = drivepin_loop 78 from wwv_drivepin_nat 78,
    (drivepin_loop_counts 78).2.2]
  rfl

/-- C9. The call `wwv_drivepin(n)` emits exactly `n` assert/deassert cycles, each nominally
10 ms long; the encoder drives 18 cycles (180 ms) for a zero bit, 48 cycles (480 ms) for a one
bit and 78 cycles (780 ms) for the position identifier that closes segments 1 to 4. -/
theorem C9_drivepin_active_durations :
    (∀ n : Nat, wwv_drivepin n = (List.replicate n drive_cycle).flatten ∧
      (wwv_drivepin n).count (Ev.gpiod_set_value true) = n ∧
      (wwv_drivepin n).count (Ev.gpiod_set_value false) = n ∧
      duration_us (wwv_drivepin n) = n * 10000) ∧
    drive_cycle = [Ev.gpiod_set_value true, Ev.usleep_range 4995 5005,
      Ev.gpiod_set_value false, Ev.usleep_range 4995 5005] ∧
    duration_us drive_cycle = 10000 ∧
    (∀ (val : Int) (i : Nat), enc_bcd_loop val 1 i =
      if int_bits val &&& (1 <<< i) ≠ 0 then
        wwv_drivepin 48 ++ [Ev.usleep_range 530000 530001]
      else wwv_drivepin 18 ++ [Ev.usleep_range 830000 830001]) ∧
    (∀ d : wwv_date,
      (∃ pre, seg_p1 d = pre ++ (wwv_drivepin 78 ++ [Ev.usleep_range 230000 230001])) ∧
      (∃ pre, seg_p2 d = pre ++ (wwv_drivepin 78 ++ [Ev.usleep_range 230000 230001])) ∧
      (∃ pre, seg_p3 d = pre ++ (wwv_drivepin 78 ++ [Ev.usleep_range 230000 230001])) ∧
      (∃ pre, seg_p4 d = pre ++ (wwv_drivepin 78 ++ [Ev.usleep_range 230000 230001]))) ∧
    duration_us (wwv_drivepin 18) = 180000 ∧
    duration_us (wwv_drivepin 48) = 480000 ∧
    duration_us (wwv_drivepin 78) = 780000 := by
  have hn := wwv_drivepin_nat
  refine ⟨?_, rfl, by decide, enc_bcd_one_pass, ?_, ?_, ?_, ?_⟩
  · intro n
    rw [hn]
    exact ⟨drivepin_loop_eq_cycles n, drivepin_loop_counts n⟩
  · intro d
    exact ⟨⟨_, rfl⟩, ⟨_, rfl⟩, ⟨_, rfl⟩, ⟨_, rfl⟩⟩
  · rw [show wwv_drivepin 18 = drivepin_loop 18 from wwv_drivepin_nat 18]
    exact (drivepin_loop_counts 18).2.2
  · rw [show wwv_drivepin 48 = drivepin_loop 48 from wwv_drivepin_nat 48]
    exact (drivepin_loop_counts 48).2.2
  · rw [show wwv_drivepin 78 = drivepin_loop 78 from wwv_drivepin_nat 78]
    exact (drivepin_loop_counts 78).2.2

/-! ### Timed slots of a frame -/

theorem timed_cycle (n t : Nat) (rest : List Ev) :
    read_timed n t (Ev.gpiod_set_value true :: Ev.usleep_range 4995 5005 ::
      Ev.gpiod_set_value false :: Ev.usleep_range 4995 5005 :: rest) =
      read_timed (n + 1) (t + 10000) rest := by
  simp [read_timed, nominal_us, Nat.add_assoc]

theorem timed_drivepin_loop (k n t : Nat) (rest : List Ev) :
    read_timed n t (drivepin_loop k ++ rest) = read_timed (n + k) (t + k * 10000) rest := by
  induction k generalizing n t with
  | zero => simp [drivepin_loop]
  | succ k ih =>
    simp only [drivepin_loop, List.cons_append, List.nil_append, List.append_assoc]
    rw [timed_cycle, ih]
    congr 1 <;> omega

theorem timed_idle (n t lo hi : Nat) (rest : List Ev) :
    read_timed n t (Ev.usleep_range lo hi :: rest) =
      match classify n with
      | some s => (read_timed 0 0 rest).map (fun l => (s, t + (lo + hi) / 2) :: l)
      | none => none := by
  simp [read_timed, nominal_us]

theorem timed_msleep (k : Nat) (rest : List Ev) :
    read_timed 0 0 (Ev.msleep (k * 1000) :: rest) =
      (read_timed 0 0 rest).map (fun s => List.replicate k (Slot.blank, 1000000) ++ s) := by
  simp [read_timed]

theorem timed_zero_slot (rest : List Ev) :
    read_timed 0 0 (wwv_drivepin ZBIT ++ Ev.usleep_range ZDELAY (ZDELAY + 1) :: rest) =
      (read_timed 0 0 rest).map (fun l => timed_slot Slot.zero :: l) := by
  have h : (ZBIT : Int).toNat = 18 := by decide
  simp only [wwv_drivepin, h, timed_drivepin_loop, timed_idle]
  rfl

theorem timed_one_slot (rest : List Ev) :
    read_timed 0 0 (wwv_drivepin OBIT ++ Ev.usleep_range ODELAY (ODELAY + 1) :: rest) =
      (read_timed 0 0 rest).map (fun l => timed_slot Slot.one :: l) := by
  have h : (OBIT : Int).toNat = 48 := by decide
  simp only [wwv_drivepin, h, timed_drivepin_loop, timed_idle]
  rfl

theorem timed_pos_slot (rest : List Ev) :
    read_timed 0 0 (wwv_drivepin PINDEX ++ Ev.usleep_range PDELAY (PDELAY + 1) :: rest) =
      (read_timed 0 0 rest).map (fun l => timed_slot Slot.pos :: l) := by
  have h : (PINDEX : Int).toNat = 78 := by decide
  simp only [wwv_drivepin, h, timed_drivepin_loop, timed_idle]
  rfl

theorem timed_enc_bcd_loop (v : Int) (hlo : -16 < v) (hhi : v < 16) (n i : Nat)
    (hn : n + i ≤ 4) (rest : List Ev) :
    read_timed 0 0 (enc_bcd_loop v n i ++ rest) =
      (read_timed 0 0 rest).map
        (fun l => ((List.range' i n).map (bcd_bit v)).map timed_slot ++ l) := by
  induction n generalizing i with
  | zero => simp [enc_bcd_loop]
  | succ n ih =>
    have hi : i < 4 := by omega
    simp only [enc_bcd_loop]
    by_cases hb : int_bits v &&& (1 <<< i) ≠ 0
    · have hs : bcd_bit v i = Slot.one := by
        unfold bcd_bit
        rw [if_pos ((bit_test_iff v i hlo hhi hi).1 hb)]
      rw [if_pos hb]
      simp only [List.append_assoc, List.singleton_append, List.cons_append, List.nil_append]
      rw [timed_one_slot, ih (i + 1) (by omega)]
      simp [List.range', hs, Option.map_map, Function.comp_def]
    · have hs : bcd_bit v i = Slot.zero := by
        unfold bcd_bit
        rw [if_neg (fun h => hb ((bit_test_iff v i hlo hhi hi).2 h))]
      rw [if_neg hb]
      simp only [List.append_assoc, List.singleton_append, List.cons_append, List.nil_append]
      rw [timed_zero_slot, ih (i + 1) (by omega)]
      simp [List.range', hs, Option.map_map, Function.comp_def]

theorem timed_enc_bcd (v : Int) (hlo : -16 < v) (hhi : v < 16) (places : Int) (w : Nat)
    (hw : places.toNat = w) (hp : w ≤ 4) (rest : List Ev) :
    read_timed 0 0 (wwv_enc_bcd v places ++ rest) =
      (read_timed 0 0 rest).map (fun l => (bcd_field v w).map timed_slot ++ l) := by
  unfold wwv_enc_bcd bcd_field
  rw [hw, timed_enc_bcd_loop v hlo hhi w 0 (by omega), List.range_eq_range']

/-- The timed reading of the frame of a digit record: the layout, each slot with the length
the encoder gives it. -/
theorem timed_enc_date (d : wwv_date) (hd : small_digits d) :
    read_timed 0 0 (wwv_enc_date d) = some ((frame_layout d).map timed_slot) := by
  obtain ⟨⟨y0, y1⟩, ⟨a0, a1⟩, ⟨b0, b1⟩, ⟨c0, c1⟩, ⟨e0, e1⟩, ⟨f0, f1⟩, ⟨g0, g1⟩, ⟨k0, k1⟩⟩ := hd
  have z1 : ∀ rest, read_timed 0 0 (wwv_enc_bcd 0 1 ++ rest) =
      (read_timed 0 0 rest).map (fun l => [timed_slot Slot.zero] ++ l) := fun rest =>
    timed_enc_bcd 0 (by norm_num) (by norm_num) 1 1 rfl (by norm_num) rest
  have z3 : ∀ rest, read_timed 0 0 (wwv_enc_bcd 0 3 ++ rest) =
      (read_timed 0 0 rest).map (fun l => List.replicate 3 (timed_slot Slot.zero) ++ l) :=
    fun rest => timed_enc_bcd 0 (by norm_num) (by norm_num) 3 3 rfl (by norm_num) rest
  unfold wwv_enc_date seg_p1 seg_p2 seg_p3 seg_p4 seg_p5 ssleep frame_layout
  simp only [List.append_assoc, List.singleton_append, List.cons_append, List.nil_append]
  rw [show (1000 : Nat) = 1 * 1000 from rfl, timed_msleep, z3,
    timed_enc_bcd d.year y0 y1 4 4 rfl (by norm_num), z1, timed_pos_slot,
    timed_enc_bcd d.min_ones a0 a1 4 4 rfl (by norm_num), z1,
    timed_enc_bcd d.min_tens b0 b1 3 3 rfl (by norm_num), z1, timed_pos_slot,
    timed_enc_bcd d.hour_ones c0 c1 4 4 rfl (by norm_num), z1,
    timed_enc_bcd d.hour_tens e0 e1 3 3 rfl (by norm_num), z1, timed_pos_slot,
    timed_enc_bcd d.day_ones f0 f1 4 4 rfl (by norm_num), z1,
    timed_enc_bcd d.day_tens g0 g1 4 4 rfl (by norm_num), timed_pos_slot,
    timed_enc_bcd d.day_hund k0 k1 2 2 rfl (by norm_num), z3, timed_msleep, timed_msleep]
  simp [read_timed, timed_slot, emitted_slot_us]

theorem duration_pulse_slots :
    duration_us (wwv_drivepin ZBIT ++ [Ev.usleep_range ZDELAY (ZDELAY + 1)]) = 1010000 ∧
    duration_us (wwv_drivepin OBIT ++ [Ev.usleep_range ODELAY (ODELAY + 1)]) = 1010000 ∧
    duration_us (wwv_drivepin PINDEX ++ [Ev.usleep_range PDELAY (PDELAY + 1)]) = 1010000 := by
  refine ⟨?_, ?_, ?_⟩
  · rw [duration_append, show wwv_drivepin ZBIT = drivepin_loop 18 from wwv_drivepin_nat 18,
      (drivepin_loop_counts 18).2.2]
    rfl
  · rw [duration_append, show wwv_drivepin OBIT = drivepin_loop 48 from wwv_drivepin_nat 48,
      (drivepin_loop_counts 48).2.2]
    rfl
  · rw [duration_append, show wwv_drivepin PINDEX = drivepin_loop 78 from wwv_drivepin_nat 78,
      (drivepin_loop_counts 78).2.2]
    rfl

theorem duration_enc_bcd_loop (val : Int) (n i : Nat) :
    duration_us (enc_bcd_loop val n i) = n * 1010000 := by
  induction n generalizing i with
  | zero => simp [enc_bcd_loop, duration_us]
  | succ n ih =>
    simp only [enc_bcd_loop]
    rw [duration_append, ih]
    split_ifs
    · rw [duration_pulse_slots.2.1]
      omega
    · rw [duration_pulse_slots.1]
      omega

/-- The nominal length of a whole frame, whatever the digits. -/
theorem duration_enc_date (d : wwv_date) : duration_us (wwv_enc_date d) = 60440000 := by
  have t1 : (1 : Int).toNat = 1 := rfl
  have t2 : (2 : Int).toNat = 2 := rfl
  have t3 : (3 : Int).toNat = 3 := rfl
  have t4 : (4 : Int).toNat = 4 := rfl
  have hp := duration_pulse_slots.2.2
  have hm : ∀ k, duration_us [Ev.msleep k] = k * 1000 := by
    intro k
    simp [duration_us, nominal_us]
  simp only [wwv_enc_date, seg_p1, seg_p2, seg_p3, seg_p4, seg_p5, ssleep, wwv_enc_bcd,
    duration_append, duration_enc_bcd_loop, t1, t2, t3, t4, hp, hm]

/-- C3 (evaluation of the code). The frame emitted for year 2021, 14:05, day 1 reads, slot by
slot, as the WWV layout: 1 blank; 3 zero bits, year digit 1, zero bit, position identifier;
minute 5 / 0, hour 4 / 1 and day 1 / 0 / 0, each field least-significant bit first with its
zero bits and position identifiers; 5 blanks; 10 blanks: 60 slots in all.  But the slots are not
all one second long: the 16 blank slots last 1 000 000 us and each of the 44 pulse slots lasts
1 010 000 us, so the frame lasts 60 440 000 us, as every frame does. -/
theorem C3_frame_layout_slots_not_one_second :
    wwv_conv_date utc_2021 date_zero = (0, date_2021) ∧
    read_slots 0 (wwv_enc_date date_2021) = some (frame_layout date_2021) ∧
    frame_layout date_2021 =
      [Slot.blank,
        Slot.zero, Slot.zero, Slot.zero, Slot.one, Slot.zero, Slot.zero, Slot.zero, Slot.zero,
        Slot.pos,
        Slot.one, Slot.zero, Slot.one, Slot.zero, Slot.zero, Slot.zero, Slot.zero, Slot.zero,
        Slot.zero, Slot.pos,
        Slot.zero, Slot.zero, Slot.one, Slot.zero, Slot.zero, Slot.one, Slot.zero, Slot.zero,
        Slot.zero, Slot.pos,
        Slot.one, Slot.zero, Slot.zero, Slot.zero, Slot.zero, Slot.zero, Slot.zero, Slot.zero,
        Slot.zero, Slot.pos,
        Slot.zero, Slot.zero, Slot.zero, Slot.zero, Slot.zero,
        Slot.blank, Slot.blank, Slot.blank, Slot.blank, Slot.blank,
        Slot.blank, Slot.blank, Slot.blank, Slot.blank, Slot.blank,
        Slot.blank, Slot.blank, Slot.blank, Slot.blank, Slot.blank] ∧
    (frame_layout date_2021).length = 60 ∧
    read_timed 0 0 (wwv_enc_date date_2021) = some ((frame_layout date_2021).map timed_slot) ∧
    timed_slot Slot.blank = (Slot.blank, 1000000) ∧
    timed_slot Slot.zero = (Slot.zero, 1010000) ∧
    timed_slot Slot.one = (Slot.one, 1010000) ∧
    timed_slot Slot.pos = (Slot.pos, 1010000) ∧
    ((frame_layout date_2021).filter (fun s => emitted_slot_us s = 1000000)).length = 16 ∧
    ((frame_layout date_2021).filter (fun s => emitted_slot_us s = 1010000)).length = 44 ∧
    duration_us (wwv_enc_date date_2021) = 60440000 ∧
    (∀ d : wwv_date, (frame_layout d).length = 60 ∧ duration_us (wwv_enc_date d) = 60440000) ∧
    (60440000 : Nat) ≠ 60 * 1000000 := by
  have hs : small_digits date_2021 := by
    unfold small_digits
    decide
  exact ⟨by decide, read_enc_date date_2021 hs, by decide, frame_layout_length date_2021,
    timed_enc_date date_2021 hs, by decide, by decide, by decide, by decide, by decide,
    by decide, duration_enc_date date_2021,
    fun d => ⟨frame_layout_length d, duration_enc_date d⟩, by decide⟩

/-- C10 (as stated) fails: the request code `0` is not `WWV_TRANSMIT` and is rejected with
`-EINVAL`, the very status a transmit request with an invalid date (day of year 500) returns;
and on a busy gate opened `O_NONBLOCK` it is rejected with `-EAGAIN`, the status of a transmit
request that would block. -/
theorem C10_counterexample_status_not_distinct :
    (0 : Nat) ≠ WWV_TRANSMIT ∧
    (wwv_ioctl false 0 (env_ok utc_2021) Gate.idle).1 = -EINVAL ∧
    (wwv_ioctl false WWV_TRANSMIT (env_ok utc_day_500) Gate.idle).1 = -EINVAL ∧
    (wwv_ioctl true 0 (env_ok utc_2021) { locked := true, pin := false }).1 = -EAGAIN ∧
    (wwv_ioctl true WWV_TRANSMIT (env_ok utc_2021) { locked := true, pin := false }).1
      = -EAGAIN := by
  decide

/-- C10 (amended). For every request code other than `WWV_TRANSMIT`, in every gate state and
with or without `O_NONBLOCK`, `wwv_ioctl` rejects the request with `-EINVAL` (with `-EAGAIN`
when the file is `O_NONBLOCK` and the mutex is held), and its trace is empty: it never takes
the mutex, never calls `wwv_conv_date` or `wwv_enc_date`, emits no pin event and leaves the
gate as it was. -/
theorem C10_ioctl_unknown_command (nonblock : Bool) (cmd : Nat) (env : Env) (g : Gate)
    (hcmd : cmd ≠ WWV_TRANSMIT) :
    (wwv_ioctl nonblock cmd env g).1 =
      (if nonblock = true ∧ g.locked = true then -EAGAIN else -EINVAL) ∧
    (wwv_ioctl nonblock cmd env g).1 < 0 ∧
    (wwv_ioctl nonblock cmd env g).2 = [] ∧
    Ev.mutex_acquire ∉ (wwv_ioctl nonblock cmd env g).2 ∧
    Ev.call_conv_date ∉ (wwv_ioctl nonblock cmd env g).2 ∧
    Ev.call_enc_date ∉ (wwv_ioctl nonblock cmd env g).2 ∧
    (∀ e ∈ (wwv_ioctl nonblock cmd env g).2, Ev.is_pin e = false) ∧
    g.run (wwv_ioctl nonblock cmd env g).2 = g := by
  have h : wwv_ioctl nonblock cmd env g =
      (if nonblock = true ∧ g.locked = true then -EAGAIN else -EINVAL, []) := by
    unfold wwv_ioctl
    by_cases h1 : nonblock = true ∧ g.locked = true
    · rw [if_pos h1, if_pos h1]
    · rw [if_neg h1, if_neg hcmd, if_neg h1]
  rw [h]
  refine ⟨rfl, ?_, rfl, by simp, by simp, by simp, by simp, rfl⟩
  show (if nonblock = true ∧ g.locked = true then -EAGAIN else -EINVAL) < 0
  split_ifs <;> decide

/-- C10 (amended), instance: request code `0` on the idle gate. -/
theorem C10_ioctl_unknown_command_witness :
    (0 : Nat) ≠ WWV_TRANSMIT ∧ wwv_ioctl false 0 (env_ok utc_2021) Gate.idle = (-22, []) :=
  ⟨by decide,
    Prod.ext (C10_ioctl_unknown_command false 0 (env_ok utc_2021) Gate.idle (by decide)).1
      (C10_ioctl_unknown_command false 0 (env_ok utc_2021) Gate.idle (by decide)).2.2.1⟩

/-! ### Interrupted acquisition -/

/-- C11. When the blocking acquisition of a transmit call is interrupted (the mutex is held
and the sleep on it is ended by a signal, so `mutex_lock_interruptible` returns non-zero),
`wwv_ioctl` returns `-EINTR` and its whole trace is that sleep: the mutex is neither taken nor
released and is still held by its owner, nothing is allocated, copied, converted or encoded, and
no pin event is issued; the gate is as before.  This is the only way the call returns
`-EINTR`. -/
theorem C11_ioctl_interrupted_no_side_effects (env : Env) (g : Gate)
    (hbusy : g.locked = true) (hsig : env.lock_wait_acquires = false) :
    wwv_ioctl false WWV_TRANSMIT env g = (-EINTR, [Ev.mutex_wait]) ∧
    -EINTR = (-4 : Int) ∧
    g.run (wwv_ioctl false WWV_TRANSMIT env g).2 = g ∧
    (g.run (wwv_ioctl false WWV_TRANSMIT env g).2).locked = true ∧
    Ev.mutex_acquire ∉ (wwv_ioctl false WWV_TRANSMIT env g).2 ∧
    Ev.mutex_unlock ∉ (wwv_ioctl false WWV_TRANSMIT env g).2 ∧
    Ev.call_conv_date ∉ (wwv_ioctl false WWV_TRANSMIT env g).2 ∧
    Ev.call_enc_date ∉ (wwv_ioctl false WWV_TRANSMIT env g).2 ∧
    (∀ e ∈ (wwv_ioctl false WWV_TRANSMIT env g).2, Ev.is_pin e = false) ∧
    (∀ (nonblock2 : Bool) (env2 : Env) (g2 : Gate),
      (wwv_ioctl nonblock2 WWV_TRANSMIT env2 g2).1 = -EINTR →
        g2.locked = true ∧ env2.lock_wait_acquires = false ∧
          (wwv_ioctl nonblock2 WWV_TRANSMIT env2 g2).2 = [Ev.mutex_wait]) := by
  have h : wwv_ioctl false WWV_TRANSMIT env g = (-EINTR, [Ev.mutex_wait]) := by
    unfold wwv_ioctl
    rw [if_neg (by simp), if_pos rfl, if_pos ⟨hbusy, hsig⟩]
  rw [h]
  refine ⟨rfl, rfl, rfl, hbusy, by decide, by decide, by decide, by decide, by decide, ?_⟩
  intro nonblock2 env2 g2 hret
  rcases ioctl_transmit_cases nonblock2 env2 g2 with
    ⟨_, _, h2⟩ | ⟨hl, hw, h2⟩ | ⟨mid, _, _, _, _, u, k, ret, hr, h2⟩ | ⟨utc, _, _, h2⟩
  · rw [h2] at hret
    exact absurd hret (by decide)
  · exact ⟨hl, hw, by rw [h2]⟩
  · rw [h2] at hret
    have hret2 : ret = -EINTR := hret
    rcases hr with rfl | rfl | ⟨rfl, _⟩ <;> exact absurd hret2 (by decide)
  · rw [h2] at hret
    have hret2 : (0 : Int) = -EINTR := hret
    exact absurd hret2 (by decide)

/-- C11, instance: a blocking transmit call on a busy gate whose wait is ended by a signal. -/
theorem C11_ioctl_interrupted_no_side_effects_witness :
    (Gate.busy true).locked = true ∧ (env_signal utc_2021).lock_wait_acquires = false ∧
    wwv_ioctl false WWV_TRANSMIT (env_signal utc_2021) (Gate.busy true) =
      (-4, [Ev.mutex_wait]) ∧
    (Gate.busy true).run (wwv_ioctl false WWV_TRANSMIT (env_signal utc_2021)
      (Gate.busy true)).2 = Gate.busy true :=
  ⟨rfl, rfl,
    (C11_ioctl_interrupted_no_side_effects (env_signal utc_2021) (Gate.busy true) rfl rfl).1,
    (C11_ioctl_interrupted_no_side_effects (env_signal utc_2021) (Gate.busy true) rfl
      rfl).2.2.1⟩

/-! ### Pin events and the critical section -/

theorem pins_under_lock_append (held : Bool) (a b : List Ev) :
    pins_under_lock held (a ++ b) =
      (pins_under_lock held a && pins_under_lock (a.foldl held_after held) b) := by
  induction a generalizing held with
  | nil => simp [pins_under_lock]
  | cons e es ih => simp [pins_under_lock, ih, Bool.and_assoc]

theorem held_of_pin_or_sleep (t : List Ev) (h : ∀ e ∈ t, Ev.is_pin_or_sleep e = true)
    (held : Bool) : t.foldl held_after held = held := by
  induction t with
  | nil => rfl
  | cons e es ih =>
    have he := h e (List.mem_cons_self _ _)
    have h1 : held_after held e = held := by
      cases e <;> first | rfl | exact absurd he (by simp [Ev.is_pin_or_sleep])
    rw [List.foldl_cons, h1]
    exact ih (fun x hx => h x (List.mem_cons_of_mem _ hx))

theorem pins_under_lock_held (t : List Ev) (h : ∀ e ∈ t, Ev.is_pin_or_sleep e = true) :
    pins_under_lock true t = true := by
  induction t with
  | nil => rfl
  | cons e es ih =>
    have he := h e (List.mem_cons_self _ _)
    have h1 : held_after true e = true := by
      cases e <;> first | rfl | exact absurd he (by simp [Ev.is_pin_or_sleep])
    simp only [pins_under_lock, Bool.or_true, Bool.true_and, h1]
    exact ih (fun x hx => h x (List.mem_cons_of_mem _ hx))

theorem pins_under_lock_no_pin (t : List Ev) (h : ∀ e ∈ t, Ev.is_pin e = false)
    (held : Bool) : pins_under_lock held t = true := by
  induction t generalizing held with
  | nil => rfl
  | cons e es ih =>
    simp only [pins_under_lock, h e (List.mem_cons_self _ _), Bool.not_false, Bool.true_or,
      Bool.true_and]
    exact ih (fun x hx => h x (List.mem_cons_of_mem _ hx)) _

theorem lock_path_held (g : Gate) : (lock_path g).foldl held_after false = true := by
  unfold lock_path
  cases g.locked <;> rfl

/-- The pin discipline of a successful transmit trace: everything up to the frees is under
the mutex, the closing deassert is not. -/
theorem success_trace_pins (g : Gate) (d : wwv_date) :
    pins_under_lock false (lock_path g ++ [Ev.kmalloc true, Ev.kmalloc true,
        Ev.copy_from_user true, Ev.call_conv_date, Ev.call_enc_date] ++ wwv_enc_date d ++
        [Ev.mutex_unlock, Ev.kfree, Ev.kfree]) = true ∧
    pins_under_lock false (lock_path g ++ [Ev.kmalloc true, Ev.kmalloc true,
        Ev.copy_from_user true, Ev.call_conv_date, Ev.call_enc_date] ++ wwv_enc_date d ++
        [Ev.mutex_unlock, Ev.kfree, Ev.kfree, Ev.gpiod_set_value false]) = false := by
  have he := enc_date_pin_or_sleep d
  have h1 : pins_under_lock false (lock_path g) = true :=
    pins_under_lock_no_pin _ (lock_path_no_pin g) _
  have h2 : ((lock_path g ++ [Ev.kmalloc true, Ev.kmalloc true, Ev.copy_from_user true,
      Ev.call_conv_date, Ev.call_enc_date]) ++ wwv_enc_date d).foldl held_after false
      = true := by
    rw [List.foldl_append, List.foldl_append, lock_path_held, held_of_pin_or_sleep _ he]
    rfl
  have h3 : pins_under_lock false ((lock_path g ++ [Ev.kmalloc true, Ev.kmalloc true,
      Ev.copy_from_user true, Ev.call_conv_date, Ev.call_enc_date]) ++ wwv_enc_date d)
      = true := by
    rw [pins_under_lock_append, pins_under_lock_append, h1, List.foldl_append, lock_path_held]
    have h4 : List.foldl held_after true [Ev.kmalloc true, Ev.kmalloc true,
        Ev.copy_from_user true, Ev.call_conv_date, Ev.call_enc_date] = true := rfl
    rw [h4, pins_under_lock_held _ he]
    rfl
  constructor
  · rw [pins_under_lock_append, h3, h2]
    rfl
  · rw [pins_under_lock_append, h3, h2]
    rfl

/-- C13 (evaluation of the code). In the trace of every transmit call that returns `0`, such
as the 2021 timestamp from the idle gate, the last event is the `gpiod_set_value` of line 412,
issued after the call's `mutex_unlock` of line 407: the pin is written while the caller no longer
holds the mutex.  Every earlier pin event of that call is under the mutex, and a call that
returns an error issues no pin event outside it. -/
theorem C13_closing_deassert_outside_lock :
    ((wwv_ioctl false WWV_TRANSMIT (env_ok utc_2021) Gate.idle).1 = 0 ∧
      (wwv_ioctl false WWV_TRANSMIT (env_ok utc_2021) Gate.idle).2 =
        prog_head ++ wwv_enc_date date_2021 ++
          [Ev.mutex_unlock, Ev.kfree, Ev.kfree, Ev.gpiod_set_value false] ∧
      pins_under_lock false (wwv_ioctl false WWV_TRANSMIT (env_ok utc_2021) Gate.idle).2
        = false) ∧
    (∀ (nonblock : Bool) (env : Env) (g : Gate),
      ((wwv_ioctl nonblock WWV_TRANSMIT env g).1 ≠ 0 ∧
        pins_under_lock false (wwv_ioctl nonblock WWV_TRANSMIT env g).2 = true) ∨
      ((wwv_ioctl nonblock WWV_TRANSMIT env g).1 = 0 ∧
        pins_under_lock false (wwv_ioctl nonblock WWV_TRANSMIT env g).2 = false ∧
        ∃ pre, (wwv_ioctl nonblock WWV_TRANSMIT env g).2 =
            pre ++ [Ev.mutex_unlock, Ev.kfree, Ev.kfree, Ev.gpiod_set_value false] ∧
          pins_under_lock false (pre ++ [Ev.mutex_unlock, Ev.kfree, Ev.kfree]) = true)) := by
  have hgen : ∀ (nonblock : Bool) (env : Env) (g : Gate),
      ((wwv_ioctl nonblock WWV_TRANSMIT env g).1 ≠ 0 ∧
        pins_under_lock false (wwv_ioctl nonblock WWV_TRANSMIT env g).2 = true) ∨
      ((wwv_ioctl nonblock WWV_TRANSMIT env g).1 = 0 ∧
        pins_under_lock false (wwv_ioctl nonblock WWV_TRANSMIT env g).2 = false ∧
        ∃ pre, (wwv_ioctl nonblock WWV_TRANSMIT env g).2 =
            pre ++ [Ev.mutex_unlock, Ev.kfree, Ev.kfree, Ev.gpiod_set_value false] ∧
          pins_under_lock false (pre ++ [Ev.mutex_unlock, Ev.kfree, Ev.kfree]) = true) := by
    intro nonblock env g
    rcases ioctl_transmit_cases nonblock env g with
      ⟨_, _, h⟩ | ⟨_, _, h⟩ | ⟨mid, hm, _, _, _, u, k, ret, hr, h⟩ | ⟨utc, _, _, h⟩
    · left
      rw [h]
      exact ⟨by decide, rfl⟩
    · left
      rw [h]
      exact ⟨by decide, rfl⟩
    · left
      rw [h]
      refine ⟨?_, ?_⟩
      · show ret ≠ 0
        rcases hr with rfl | rfl | ⟨rfl, _⟩ <;> decide
      · apply pins_under_lock_no_pin
        intro e he
        simp only [List.mem_append] at he
        rcases he with (he | he) | he
        · exact lock_path_no_pin g e he
        · exact hm e he
        · exact (count_fail_path u k).2.2.1 e he
    · right
      rw [h]
      obtain ⟨hp1, hp2⟩ := success_trace_pins g (wwv_conv_date utc env.kdtime_init).2
      exact ⟨rfl, hp2, _, rfl, hp1⟩
  refine ⟨⟨(transmit_prog_eq utc_2021 date_2021 (by decide)).1,
    (transmit_prog_eq utc_2021 date_2021 (by decide)).2, ?_⟩, hgen⟩
  rcases hgen false (env_ok utc_2021) Gate.idle with ⟨h0, _⟩ | ⟨_, h1, _⟩
  · exact absurd (transmit_prog_eq utc_2021 date_2021 (by decide)).1 h0
  · exact h1

/-! ### Digit ranges and decoding -/

theorem field_value_bcd_field (v : Int) (w : Nat) (hw : w ≤ 4) (h0 : 0 ≤ v) (h1 : v < 2 ^ w) :
    (field_value (bcd_field v w) : Int) = v := by
  interval_cases w
  · have : v = 0 := by omega
    subst this
    decide
  · have h2 : v < 2 := by simpa using h1
    interval_cases v <;> decide
  · have h2 : v < 4 := by simpa using h1
    interval_cases v <;> decide
  · have h2 : v < 8 := by simpa using h1
    interval_cases v <;> decide
  · have h2 : v < 16 := by simpa using h1
    interval_cases v <;> decide

/-- The ranges of the digit fields of an accepted timestamp. -/
theorem conv_date_digit_ranges {utc : tm} {dtime d : wwv_date}
    (h : wwv_conv_date utc dtime = (0, d)) :
    (-10 < d.year ∧ d.year < 10) ∧ (0 ≤ d.min_ones ∧ d.min_ones ≤ 9) ∧
    (0 ≤ d.min_tens ∧ d.min_tens ≤ 5) ∧ (0 ≤ d.hour_ones ∧ d.hour_ones ≤ 9) ∧
    (0 ≤ d.hour_tens ∧ d.hour_tens ≤ 2) ∧ (0 ≤ d.day_ones ∧ d.day_ones ≤ 9) ∧
    (0 ≤ d.day_tens ∧ d.day_tens ≤ 9) ∧ (0 ≤ d.day_hund ∧ d.day_hund ≤ 3) := by
  obtain ⟨⟨hm0, hm1⟩, ⟨hh0, hh1⟩, ⟨hd0, hd1⟩⟩ := conv_date_accept_range h
  have hy := tmod_ten_bounds (wrap_long (utc.tm_year + 1900))
  rw [conv_date_accept_digits h]
  simp only
  rw [Int.tmod_eq_emod hm0 (by norm_num),
    Int.tdiv_eq_ediv hm0 (by norm_num), Int.tmod_eq_emod hh0 (by norm_num),
    Int.tdiv_eq_ediv hh0 (by norm_num), Int.tmod_eq_emod hd0 (by norm_num),
    Int.tmod_eq_emod hd0 (by norm_num), Int.tdiv_eq_ediv hd0 (by norm_num),
    Int.tdiv_eq_ediv (Int.emod_nonneg _ (by norm_num)) (by norm_num)]
  omega

/-- The year digit of an accepted timestamp whose year is non-negative and representable. -/
theorem conv_date_year_digit {utc : tm} {dtime d : wwv_date}
    (h : wwv_conv_date utc dtime = (0, d))
    (hlo : 0 ≤ utc.tm_year + 1900) (hhi : utc.tm_year + 1900 ≤ 2147483647) :
    d.year = (utc.tm_year + 1900) % 10 := by
  rw [conv_date_accept_digits h]
  simp only
  rw [wrap_long_of_range (by omega) hhi, Int.tmod_eq_emod hlo (by norm_num)]

/-- C12 (as stated) fails: the timestamp with `tm_year = -1901` is accepted and its year
field is `-1`, which is not in `0 .. 2^4 - 1`; its four encoded places are all ones, the
value 15. -/
theorem C12_counterexample_negative_year_digit :
    (wwv_conv_date (utc_year (-1901)) date_zero).1 = 0 ∧
    (wwv_conv_date (utc_year (-1901)) date_zero).2.year = -1 ∧
    ¬ ((0 : Int) ≤ (wwv_conv_date (utc_year (-1901)) date_zero).2.year ∧
      (wwv_conv_date (utc_year (-1901)) date_zero).2.year < 2 ^ 4) ∧
    bcd_field (wwv_conv_date (utc_year (-1901)) date_zero).2.year 4 =
      [Slot.one, Slot.one, Slot.one, Slot.one] ∧
    field_value (bcd_field (wwv_conv_date (utc_year (-1901)) date_zero).2.year 4) = 15 := by
  decide

/-- C12 (amended). For every accepted timestamp the seven minute, hour and day fields `d`
satisfy `0 ≤ d < 2 ^ w` for the number of places `w` they are encoded into (minute ones 4,
minute tens 3, hour ones 4, hour tens 3, day ones 4, day tens 4, day hundreds 2), so their
places read back as the field itself; the year field lies in `-9 .. 9`, and it satisfies
`0 ≤ d < 2 ^ 4` and reads back as itself when `0 ≤ tm_year + 1900 ≤ 2147483647`. -/
theorem C12_digit_fields_fit (utc : tm) (dtime d : wwv_date)
    (hacc : wwv_conv_date utc dtime = (0, d)) :
    ((0 ≤ d.min_ones ∧ d.min_ones < 2 ^ 4) ∧ (0 ≤ d.min_tens ∧ d.min_tens < 2 ^ 3) ∧
      (0 ≤ d.hour_ones ∧ d.hour_ones < 2 ^ 4) ∧ (0 ≤ d.hour_tens ∧ d.hour_tens < 2 ^ 3) ∧
      (0 ≤ d.day_ones ∧ d.day_ones < 2 ^ 4) ∧ (0 ≤ d.day_tens ∧ d.day_tens < 2 ^ 4) ∧
      (0 ≤ d.day_hund ∧ d.day_hund < 2 ^ 2)) ∧
    ((field_value (bcd_field d.min_ones 4) : Int) = d.min_ones ∧
      (field_value (bcd_field d.min_tens 3) : Int) = d.min_tens ∧
      (field_value (bcd_field d.hour_ones 4) : Int) = d.hour_ones ∧
      (field_value (bcd_field d.hour_tens 3) : Int) = d.hour_tens ∧
      (field_value (bcd_field d.day_ones 4) : Int) = d.day_ones ∧
      (field_value (bcd_field d.day_tens 4) : Int) = d.day_tens ∧
      (field_value (bcd_field d.day_hund 2) : Int) = d.day_hund) ∧
    (-9 ≤ d.year ∧ d.year ≤ 9) ∧
    (0 ≤ utc.tm_year + 1900 → utc.tm_year + 1900 ≤ 2147483647 →
      (0 ≤ d.year ∧ d.year < 2 ^ 4) ∧ (field_value (bcd_field d.year 4) : Int) = d.year) := by
  obtain ⟨⟨y0, y1⟩, ⟨a0, a1⟩, ⟨b0, b1⟩, ⟨c0, c1⟩, ⟨e0, e1⟩, ⟨f0, f1⟩, ⟨g0, g1⟩, ⟨k0, k1⟩⟩ :=
    conv_date_digit_ranges hacc
  have p4 : (2 : Int) ^ 4 = 16 := by norm_num
  have p3 : (2 : Int) ^ 3 = 8 := by norm_num
  have p2 : (2 : Int) ^ 2 = 4 := by norm_num
  refine ⟨?_, ?_, ⟨by omega, by omega⟩, ?_⟩
  · rw [p4, p3, p2]
    omega
  · exact ⟨field_value_bcd_field _ 4 (by norm_num) a0 (by omega),
      field_value_bcd_field _ 3 (by norm_num) b0 (by omega),
      field_value_bcd_field _ 4 (by norm_num) c0 (by omega),
      field_value_bcd_field _ 3 (by norm_num) e0 (by omega),
      field_value_bcd_field _ 4 (by norm_num) f0 (by omega),
      field_value_bcd_field _ 4 (by norm_num) g0 (by omega),
      field_value_bcd_field _ 2 (by norm_num) k0 (by omega)⟩
  · intro hlo hhi
    have hy := conv_date_year_digit hacc hlo hhi
    have hy0 : 0 ≤ d.year := by omega
    exact ⟨⟨hy0, by omega⟩, field_value_bcd_field _ 4 (by norm_num) hy0 (by omega)⟩

/-- C12 (amended), instance: the 2021 timestamp, whose digits are 1, 5/0, 4/1 and 1/0/0. -/
theorem C12_digit_fields_fit_witness :
    wwv_conv_date utc_2021 date_zero = (0, date_2021) ∧
    (0 : Int) ≤ utc_2021.tm_year + 1900 ∧ utc_2021.tm_year + 1900 ≤ 2147483647 ∧
    ((0 : Int) ≤ date_2021.year ∧ date_2021.year < 2 ^ 4) ∧
    (field_value (bcd_field date_2021.year 4) : Int) = date_2021.year ∧
    (field_value (bcd_field date_2021.min_ones 4) : Int) = date_2021.min_ones :=
  have h := C12_digit_fields_fit utc_2021 date_zero date_2021 (by decide)
  ⟨by decide, by decide, by decide, (h.2.2.2 (by decide) (by decide)).1,
    (h.2.2.2 (by decide) (by decide)).2, h.2.1.1⟩

/-! ### Decoding a frame -/

theorem decode_frame_layout (d : wwv_date) :
    decode_frame (frame_layout d) =
      (field_value (bcd_field d.year 4),
       10 * field_value (bcd_field d.min_tens 3) + field_value (bcd_field d.min_ones 4),
       10 * field_value (bcd_field d.hour_tens 3) + field_value (bcd_field d.hour_ones 4),
       100 * field_value (bcd_field d.day_hund 2) + 10 * field_value (bcd_field d.day_tens 4) +
         field_value (bcd_field d.day_ones 4)) := by
  rfl

theorem conv_date_eq_spec_digits {utc : tm} {dtime d : wwv_date}
    (h : wwv_conv_date utc dtime = (0, d))
    (hlo : 0 ≤ utc.tm_year + 1900) (hhi : utc.tm_year + 1900 ≤ 2147483647) :
    d = spec_digits (utc.tm_year + 1900) utc.tm_min utc.tm_hour utc.tm_yday := by
  obtain ⟨⟨hm0, _⟩, ⟨hh0, _⟩, ⟨hd0, _⟩⟩ := conv_date_accept_range h
  rw [conv_date_accept_digits h]
  unfold spec_digits
  rw [wrap_long_of_range (by omega) hhi]
  rw [Int.tmod_eq_emod hlo (by norm_num), Int.tmod_eq_emod hm0 (by norm_num),
    Int.tdiv_eq_ediv hm0 (by norm_num), Int.tmod_eq_emod hh0 (by norm_num),
    Int.tdiv_eq_ediv hh0 (by norm_num), Int.tmod_eq_emod hd0 (by norm_num),
    Int.tmod_eq_emod hd0 (by norm_num), Int.tdiv_eq_ediv hd0 (by norm_num),
    Int.tdiv_eq_ediv (Int.emod_nonneg _ (by norm_num)) (by norm_num)]

/-- What a receiver reads from the frame of an accepted timestamp with a non-negative,
representable year. -/
theorem decode_enc_date {utc : tm} {dtime d : wwv_date}
    (h : wwv_conv_date utc dtime = (0, d))
    (hlo : 0 ≤ utc.tm_year + 1900) (hhi : utc.tm_year + 1900 ≤ 2147483647) :
    read_slots 0 (wwv_enc_date d) = some (frame_layout d) ∧
    ((decode_frame (frame_layout d)).1 : Int) = (utc.tm_year + 1900) % 10 ∧
    ((decode_frame (frame_layout d)).2.1 : Int) = utc.tm_min ∧
    ((decode_frame (frame_layout d)).2.2.1 : Int) = utc.tm_hour ∧
    ((decode_frame (frame_layout d)).2.2.2 : Int) = utc.tm_yday := by
  obtain ⟨⟨y0, y1⟩, ⟨a0, a1⟩, ⟨b0, b1⟩, ⟨c0, c1⟩, ⟨e0, e1⟩, ⟨f0, f1⟩, ⟨g0, g1⟩, ⟨k0, k1⟩⟩ :=
    conv_date_digit_ranges h
  obtain ⟨⟨hm0, _⟩, ⟨hh0, _⟩, ⟨hd0, _⟩⟩ := conv_date_accept_range h
  have hy := conv_date_year_digit h hlo hhi
  have hsp := conv_date_eq_spec_digits h hlo hhi
  have e1 : d.min_ones = utc.tm_min % 10 := by rw [hsp]; rfl
  have e2 : d.min_tens = utc.tm_min / 10 := by rw [hsp]; rfl
  have e3 : d.hour_ones = utc.tm_hour % 10 := by rw [hsp]; rfl
  have e4 : d.hour_tens = utc.tm_hour / 10 := by rw [hsp]; rfl
  have e5 : d.day_ones = utc.tm_yday % 10 := by rw [hsp]; rfl
  have e6 : d.day_tens = (utc.tm_yday % 100) / 10 := by rw [hsp]; rfl
  have e7 : d.day_hund = utc.tm_yday / 100 := by rw [hsp]; rfl
  have v0 := field_value_bcd_field d.year 4 (by norm_num) (by omega) (by norm_num; omega)
  have v1 := field_value_bcd_field d.min_ones 4 (by norm_num) a0 (by norm_num; omega)
  have v2 := field_value_bcd_field d.min_tens 3 (by norm_num) b0 (by norm_num; omega)
  have v3 := field_value_bcd_field d.hour_ones 4 (by norm_num) c0 (by norm_num; omega)
  have v4 := field_value_bcd_field d.hour_tens 3 (by norm_num) e0 (by norm_num; omega)
  have v5 := field_value_bcd_field d.day_ones 4 (by norm_num) f0 (by norm_num; omega)
  have v6 := field_value_bcd_field d.day_tens 4 (by norm_num) g0 (by norm_num; omega)
  have v7 := field_value_bcd_field d.day_hund 2 (by norm_num) k0 (by norm_num; omega)
  refine ⟨read_enc_date d (conv_date_small_digits h), ?_, ?_, ?_, ?_⟩
  · rw [decode_frame_layout]
    simp only
    rw [v0, hy]
  · rw [decode_frame_layout]
    simp only
    push_cast
    rw [v1, v2, e1, e2]
    omega
  · rw [decode_frame_layout]
    simp only
    push_cast
    rw [v3, v4, e3, e4]
    omega
  · rw [decode_frame_layout]
    simp only
    push_cast
    rw [v5, v6, v7, e5, e6, e7]
    omega


/-- C14 (as stated) fails: the timestamp with `tm_year = 2147481756` is accepted and has
`tm_year + 1900 = 2147483656 ≥ 0` with last digit 6, but the sum wraps in the 32-bit `long` it
is computed in, the year field is `0`, and the frame reads back year digit `0`; it is the very
frame of year 2000 (`tm_year = 100`), whose last digit is `0`. -/
theorem C14_counterexample_year_overflow :
    wwv_conv_date (utc_year 2147481756) date_zero = (0, date_zero) ∧
    (0 : Int) ≤ (utc_year 2147481756).tm_year + 1900 ∧
    ((utc_year 2147481756).tm_year + 1900) % 10 = 6 ∧
    read_slots 0 (wwv_enc_date date_zero) = some (frame_layout date_zero) ∧
    (decode_frame (frame_layout date_zero)).1 = 0 ∧
    wwv_conv_date (utc_year 100) date_zero = (0, date_zero) ∧
    ((utc_year 100).tm_year + 1900) % 10 = 0 := by
  refine ⟨by decide, by decide, by decide, ?_, by decide, by decide, by decide⟩
  exact read_enc_date date_zero (by unfold small_digits; decide)

/-- C14 (amended). For every accepted timestamp with `0 ≤ tm_year + 1900 ≤ 2147483647`, the
trace emitted by `wwv_enc_date` reads as a frame whose data slots (one pulse = 1, zero pulse = 0,
least-significant bit first), recombined as `10 * tens + ones` and
`100 * hund + 10 * tens + ones`, give back exactly `tm_min`, `tm_hour`, `tm_yday` and
`(tm_year + 1900) mod 10`; and two such timestamps produce the same trace if and only if they
agree on those four values. -/
theorem C14_frame_decodes (utc1 utc2 : tm) (dtime1 dtime2 d1 d2 : wwv_date)
    (h1 : wwv_conv_date utc1 dtime1 = (0, d1)) (h2 : wwv_conv_date utc2 dtime2 = (0, d2))
    (hlo1 : 0 ≤ utc1.tm_year + 1900) (hhi1 : utc1.tm_year + 1900 ≤ 2147483647)
    (hlo2 : 0 ≤ utc2.tm_year + 1900) (hhi2 : utc2.tm_year + 1900 ≤ 2147483647) :
    (∃ s, read_slots 0 (wwv_enc_date d1) = some s ∧
      ((decode_frame s).1 : Int) = (utc1.tm_year + 1900) % 10 ∧
      ((decode_frame s).2.1 : Int) = utc1.tm_min ∧
      ((decode_frame s).2.2.1 : Int) = utc1.tm_hour ∧
      ((decode_frame s).2.2.2 : Int) = utc1.tm_yday) ∧
    (wwv_enc_date d1 = wwv_enc_date d2 ↔
      ((utc1.tm_year + 1900) % 10 = (utc2.tm_year + 1900) % 10 ∧ utc1.tm_min = utc2.tm_min ∧
        utc1.tm_hour = utc2.tm_hour ∧ utc1.tm_yday = utc2.tm_yday)) := by
  obtain ⟨r1, y1, m1, o1, a1⟩ := decode_enc_date h1 hlo1 hhi1
  obtain ⟨r2, y2, m2, o2, a2⟩ := decode_enc_date h2 hlo2 hhi2
  refine ⟨⟨frame_layout d1, r1, y1, m1, o1, a1⟩, ?_, ?_⟩
  · intro he
    have hf : frame_layout d1 = frame_layout d2 := by
      have h3 : some (frame_layout d1) = some (frame_layout d2) := by
        rw [← r1, ← r2, he]
      exact Option.some.inj h3
    rw [hf] at y1 m1 o1 a1
    exact ⟨y1.symm.trans y2, m1.symm.trans m2, o1.symm.trans o2, a1.symm.trans a2⟩
  · rintro ⟨hy, hm, hh, hd⟩
    have e1 := conv_date_eq_spec_digits h1 hlo1 hhi1
    have e2 := conv_date_eq_spec_digits h2 hlo2 hhi2
    have hd12 : d1 = d2 := by
      rw [e1, e2]
      unfold spec_digits
      rw [hy, hm, hh, hd]
    rw [hd12]

/-- C14 (amended), instance: 2021 and 2031, day 1, 14:05 read back as year digit 1, minute 5,
hour 14, day 1, and share one trace. -/
theorem C14_frame_decodes_witness :
    wwv_conv_date utc_2021 date_zero = (0, date_2021) ∧
    wwv_conv_date utc_2031 date_zero = (0, date_2021) ∧
    (0 : Int) ≤ utc_2021.tm_year + 1900 ∧ utc_2021.tm_year + 1900 ≤ 2147483647 ∧
    (0 : Int) ≤ utc_2031.tm_year + 1900 ∧ utc_2031.tm_year + 1900 ≤ 2147483647 ∧
    (∃ s, read_slots 0 (wwv_enc_date date_2021) = some s ∧
      ((decode_frame s).1 : Int) = 1 ∧ ((decode_frame s).2.1 : Int) = 5 ∧
      ((decode_frame s).2.2.1 : Int) = 14 ∧ ((decode_frame s).2.2.2 : Int) = 1) :=
  ⟨by decide, by decide, by decide, by decide, by decide, by decide,
    (C14_frame_decodes utc_2021 utc_2031 date_zero date_zero date_2021 date_2021
      (by decide) (by decide) (by decide) (by decide) (by decide) (by decide)).1⟩

end WWV
